import Mathlib

/-!
Verification of the accrew Agent Session Orchestrator.

Shallow embedding of the TypeScript sources:
  - src/main/database.ts            (Database)
  - src/main/agent-manager.ts       (AgentManager: createSession, sendMessage,
                                     handleStreamEvent, matchWorkspace, abortSession)
  - src/main/copilot-client.ts      (CopilotClient.init timeout race)
  - src/shared/types.ts             (data model)

JavaScript string truthiness (empty string is falsy) and the semantics of the
logical-or operator are modelled explicitly, because the source relies on them
for argument extraction and defaulting.  Asynchronous external interactions
(the LLM call inside matchWorkspace, the adapter stream, timestamps from
Date.now, generated uuids) are passed in as explicit parameters, the standard
shallow-embedding treatment of effectful inputs.
-/

namespace Accrew

/-! ## JavaScript string semantics helpers -/

/-- Truthiness of a value of TS type string or undefined or null:
empty string, undefined and null are falsy. -/
def truthy : Option String → Bool
  | some s => s ≠ ""
  | none => false

/-- The JavaScript expression a or-else b for string-or-undefined values:
returns a when a is truthy, otherwise returns b unchanged (even when b is
falsy, mirroring the JS logical-or returning its last operand). -/
def jsOr (a b : Option String) : Option String :=
  if truthy a then a else b

/-- The JavaScript expression x or-else d for a string default d, producing a
plain string (used for patterns such as event.content or-empty). -/
def jsOrD (a : Option String) (d : String) : String :=
  match a with
  | some s => if s = "" then d else s
  | none => d

/-- Character-list version of startsWith. -/
def charsStartWith : List Char → List Char → Bool
  | _, [] => true
  | [], _ :: _ => false
  | c :: cs, d :: ds => c = d && charsStartWith cs ds

/-- Character-list substring containment, the model of the JS
String.prototype.includes method. -/
def charsIncl : List Char → List Char → Bool
  | [], sub => sub.isEmpty
  | c :: cs, sub => charsStartWith (c :: cs) sub || charsIncl cs sub

/-- The JS expression s.includes(sub). -/
def strIncludes (s sub : String) : Bool := charsIncl s.data sub.data

/-- The JS expression s.toLowerCase(), for the ASCII range used by tool names
and workspace names. -/
def strLower (s : String) : String := String.mk (s.data.map Char.toLower)

/-- The JS expression s.endsWith(newline). -/
def endsWithNL (s : String) : Bool := s.data.getLast? = some '\n'

/-- The JS expression s.startsWith(newline). -/
def startsWithNL (s : String) : Bool := s.data.head? = some '\n'

/-- Splitting a character list at separator characters, JS
String.prototype.split semantics: adjacent separators and boundary separators
yield empty fragments. -/
def splitChars (sep : Char → Bool) : List Char → List Char → List String
  | [], acc => [String.mk acc.reverse]
  | c :: cs, acc =>
      if sep c then String.mk acc.reverse :: splitChars sep cs []
      else splitChars sep cs (c :: acc)

/-- The JS expression name.split(dash-or-underscore regex). -/
def splitDashUnderscore (s : String) : List String :=
  splitChars (fun c => c = '-' ∨ c = '_') s.data []

/-! ## Data model (src/shared/types.ts) -/

/-- types.ts Session.  status ranges over active, completed, error, archived;
it is a single field, not two independent axes. -/
structure Session where
  id : String
  title : String
  workspace : Option String
  workspacePath : Option String
  logo : Option String
  createdAt : Nat
  updatedAt : Nat
  hasUnread : Bool
  status : String
deriving Repr, DecidableEq

/-- types.ts ToolCall.  Arguments are a string-keyed map (assoc list); the
result is opaque, modelled as a string. -/
structure ToolCall where
  id : String
  name : String
  arguments : List (String × String)
  result : Option String
  status : String
deriving Repr, DecidableEq

/-- types.ts FileChange.  The TS type declares path as string, but the code
that builds a FileChange reads it out of tool-call arguments with a chain of
JS or-operators that can produce undefined, so the embedding uses an option. -/
structure FileChange where
  path : Option String
  type : String
  oldContent : Option String
  newContent : Option String
deriving Repr, DecidableEq

/-- types.ts Workspace. -/
structure Workspace where
  name : String
  displayName : String
  path : String
  logo : Option String
  readme : Option String
  copilotInstructions : Option String
deriving Repr, DecidableEq

/-- types.ts WorkspaceMatch.  Confidence is a rational in the unit interval. -/
structure WorkspaceMatch where
  workspace : Option Workspace
  confidence : Rat
  reason : String
deriving Repr, DecidableEq

/-- The JSON object parsed out of the matching LLM response inside
AgentManager.matchWorkspace: fields workspace, confidence, reason, each
possibly absent or null. -/
structure ParsedLLM where
  workspace : Option String
  confidence : Option Rat
  reason : Option String
deriving Repr, DecidableEq

/-- Lookup of a tool-call argument by key (first binding wins). -/
def getArg (args : List (String × String)) (k : String) : Option String :=
  (args.find? (fun p => p.1 = k)).map (fun p => p.2)

end Accrew

namespace Accrew.AgentManager

open Accrew

/-! ## AgentManager.matchWorkspace (agent-manager.ts lines 325 to 394)

The LLM interaction is abstracted by the parameter llm:
  - none models every path that falls through to the keyword fallback:
    client construction or chat throwing, no JSON object in the response
    text, or JSON.parse throwing;
  - some p models a successfully parsed JSON object p, in which case the
    code returns directly from the LLM tier without consulting any
    threshold. -/

/-- The keyword-fallback loop at the end of matchWorkspace: workspace names
are split on dashes and underscores; a candidate wins when at least two of
its name parts occur in the lowercased prompt, or when it has a single name
part occurring in the prompt; confidence is fixed at 0.8. -/
def fallbackMatch (promptLower : String) : List Workspace → WorkspaceMatch
  | [] => { workspace := none, confidence := 0, reason := "No confident match found" }
  | w :: rest =>
      let nameParts := splitDashUnderscore (strLower w.name)
      let matchCount := (nameParts.filter (fun part => strIncludes promptLower part)).length
      if matchCount ≥ 2 ∨ (nameParts.length = 1 ∧ strIncludes promptLower (nameParts.headD "")) then
        { workspace := some w, confidence := mkRat 8 10
        , reason := "Matched workspace name " ++ w.name ++ " in prompt" }
      else fallbackMatch promptLower rest

/-- AgentManager.matchWorkspace.  When the LLM tier yields a parsed JSON
object, its workspace name is looked up among the known workspaces and the
reported confidence is passed through with JS or-defaults (confidence
or-zero, reason or-empty); no threshold is applied there.  Otherwise the
keyword fallback runs. -/
def matchWorkspace (workspaces : List Workspace) (prompt : String)
    (llm : Option ParsedLLM) : WorkspaceMatch :=
  if workspaces.isEmpty then
    { workspace := none, confidence := 0, reason := "No workspaces available" }
  else
    match llm with
    | some parsed =>
        let matched := workspaces.find? (fun w => some w.name = parsed.workspace)
        { workspace := matched
        , confidence := parsed.confidence.getD 0
        , reason := parsed.reason.getD "" }
    | none => fallbackMatch (strLower prompt) workspaces

end Accrew.AgentManager

namespace Accrew

/-! ## Canonical stream events and the per-session accumulator -/

/-- copilot-client.ts StreamEvent: the four canonical kinds.  Every payload
field is optional in the TS interface. -/
inductive StreamEvent where
  | thinking (content : Option String)
  | tool_call (id : Option String) (name : Option String)
      (arguments : Option (List (String × String)))
  | tool_result (toolCallId : Option String) (result : Option String)
  | text (content : Option String)
deriving Repr, DecidableEq

/-- agent-manager.ts ActiveSession: the ephemeral per-session state.  The
copilotClient handle is modelled by a presence flag. -/
structure ActiveSession where
  session : Session
  copilotClient : Bool
  currentMessageId : Option String
  thinking : String
  toolCalls : List ToolCall
  fileChanges : List FileChange
  content : String
  aborted : Bool
deriving Repr, DecidableEq

/-- The activeSessions map, as an association list keyed by session id. -/
abbrev SessionMap := List (String × ActiveSession)

/-- Map lookup (Map.prototype.get). -/
def getS : SessionMap → String → Option ActiveSession
  | [], _ => none
  | (k, v) :: rest, sid => if k = sid then some v else getS rest sid

/-- Map update (Map.prototype.set): replaces the binding for the key, or
appends a new binding. -/
def setS : SessionMap → String → ActiveSession → SessionMap
  | [], sid, a => [(sid, a)]
  | (k, v) :: rest, sid, a =>
      if k = sid then (k, a) :: rest else (k, v) :: setS rest sid a

/-- Events emitted toward the renderer (the emit callback of AgentManager). -/
inductive Emit where
  | thinkingE (sessionId : String) (content : String)
  | toolCallE (sessionId : String) (toolCall : ToolCall)
  | toolResultE (sessionId : String) (toolCallId : Option String) (result : Option String)
  | fileChangeE (sessionId : String) (change : FileChange)
  | responseE (sessionId : String) (content : String)
  | doneE (sessionId : String) (messageId : String) (thinking : String)
      (content : String) (toolCalls : List ToolCall)
      (fileChanges : List FileChange) (aborted : Bool)
  | errorE (sessionId : String) (error : String)
  | sessionUpdatedE (session : Session)
  | titleUpdatedE (sessionId : String) (title : String)
deriving Repr, DecidableEq

end Accrew

namespace Accrew.AgentManager

open Accrew

/-! ## AgentManager.handleStreamEvent (agent-manager.ts lines 244 to 323) -/

/-- The tool-name categorization inside the tool_result branch: an exact
(case-insensitive) comparison of the tool name against three fixed lists of
names, with argument extraction via chains of JS or-operators over a fixed,
ordered list of candidate keys. -/
def inferChange (tc : ToolCall) : Option FileChange :=
  let args := tc.arguments
  let toolName := strLower tc.name
  if toolName = "write_file" ∨ toolName = "create_file" ∨ toolName = "create" then
    some { path := jsOr (getArg args "path") (getArg args "filePath")
         , type := "created"
         , oldContent := none
         , newContent := some (jsOrD (getArg args "content") "") }
  else if toolName = "edit" ∨ toolName = "edit_file" ∨
      toolName = "replace_string_in_file" ∨ toolName = "str_replace" then
    some { path := jsOr (getArg args "path") (getArg args "filePath")
         , type := "modified"
         , oldContent := some (jsOrD (jsOr (getArg args "oldString")
             (jsOr (getArg args "old_str") (getArg args "search"))) "")
         , newContent := some (jsOrD (jsOr (getArg args "newString")
             (jsOr (getArg args "new_str")
               (jsOr (getArg args "replace") (getArg args "content")))) "") }
  else if toolName = "delete_file" ∨ toolName = "delete" then
    some { path := jsOr (getArg args "path") (getArg args "filePath")
         , type := "deleted"
         , oldContent := some ""
         , newContent := none }
  else none

/-- In-place update of the first tool call with the given id: result assigned,
status set to completed (the tool_result branch). -/
def updateToolCallResult (tcid : String) (res : Option String) :
    List ToolCall → List ToolCall
  | [] => []
  | t :: rest =>
      if t.id = tcid then { t with result := res, status := "completed" } :: rest
      else t :: updateToolCallResult tcid res rest

/-- The paragraph separator inserted between consecutive text chunks: a double
newline when both the accumulated content and the new chunk are non-empty and
neither side already has a newline at the junction. -/
def textSeparator (accumulated newContent : String) : String :=
  if accumulated ≠ "" ∧ newContent ≠ "" ∧
      ¬ endsWithNL accumulated ∧ ¬ startsWithNL newContent then "\n\n"
  else ""

/-- The ToolCall record pushed by the tool_call branch (status running, with
an or-empty default for absent arguments). -/
def mkRunningToolCall (id name : Option String)
    (args : Option (List (String × String))) : ToolCall :=
  { id := id.getD "", name := name.getD "", arguments := args.getD []
  , result := none, status := "running" }

/-- The mutation of one ActiveSession performed by handleStreamEvent for one
event (the switch body, state portion). -/
def applyEvent (a : ActiveSession) (e : StreamEvent) : ActiveSession :=
  match e with
  | .thinking c => { a with thinking := a.thinking ++ jsOrD c "" }
  | .tool_call id name args =>
      if truthy id ∧ truthy name then
        { a with toolCalls := a.toolCalls ++ [mkRunningToolCall id name args] }
      else a
  | .tool_result toolCallId result =>
      match toolCallId with
      | none => a
      | some tcid =>
          match a.toolCalls.find? (fun t => t.id = tcid) with
          | none => a
          | some tc =>
              let a := { a with toolCalls := updateToolCallResult tcid result a.toolCalls }
              match inferChange tc with
              | some change => { a with fileChanges := a.fileChanges ++ [change] }
              | none => a
  | .text c =>
      let newContent := jsOrD c ""
      { a with content := a.content ++ textSeparator a.content newContent ++ newContent }

/-- The events handleStreamEvent emits for one stream event, computed from the
pre-state of the accumulator (the switch body, emit portion). -/
def emitsOf (sid : String) (a : ActiveSession) (e : StreamEvent) : List Emit :=
  match e with
  | .thinking c => [.thinkingE sid (jsOrD c "")]
  | .tool_call id name args =>
      if truthy id ∧ truthy name then [.toolCallE sid (mkRunningToolCall id name args)]
      else []
  | .tool_result toolCallId result =>
      (match toolCallId.bind (fun tcid => a.toolCalls.find? (fun t => t.id = tcid)) with
       | some tc =>
           match inferChange tc with
           | some change => [.fileChangeE sid change]
           | none => []
       | none => []) ++ [.toolResultE sid toolCallId result]
  | .text c =>
      let newContent := jsOrD c ""
      [.responseE sid (textSeparator a.content newContent ++ newContent)]

/-- AgentManager.handleStreamEvent: looks up the session in activeSessions,
returning unchanged when absent (defensive no-op), otherwise applies the
event to that session only and emits the corresponding renderer events. -/
def handleStreamEvent (m : SessionMap) (sid : String) (e : StreamEvent) :
    SessionMap × List Emit :=
  match getS m sid with
  | none => (m, [])
  | some a => (setS m sid (applyEvent a e), emitsOf sid a e)

/-- AgentManager.abortSession: when an active state with an adapter client
exists, sets the aborted flag (the adapter abort signal itself is external). -/
def abortSession (m : SessionMap) (sid : String) : SessionMap :=
  match getS m sid with
  | some a => if a.copilotClient then setS m sid { a with aborted := true } else m
  | none => m

/-- One step of a turn as observed by the orchestrator: either a stream event
arriving, or an abortSession call interleaved into the turn. -/
inductive TurnStep where
  | ev (e : StreamEvent)
  | abortCall
deriving Repr, DecidableEq

/-- Processing a sequence of turn steps for one session: stream events go
through handleStreamEvent, abort calls through abortSession. -/
def processSteps (m : SessionMap) (sid : String) :
    List TurnStep → SessionMap × List Emit
  | [] => (m, [])
  | .ev e :: rest =>
      let r := handleStreamEvent m sid e
      let r2 := processSteps r.1 sid rest
      (r2.1, r.2 ++ r2.2)
  | .abortCall :: rest => processSteps (abortSession m sid) sid rest

end Accrew.AgentManager

namespace Accrew

/-! ## Durable storage model (src/main/database.ts) -/

/-- messages table row.  The thinking, tool_calls and file_changes columns are
nullable; none models SQL NULL (undefined fields are stored as NULL). -/
structure MessageRow where
  id : String
  sessionId : String
  role : String
  content : String
  thinking : Option String
  toolCalls : Option (List ToolCall)
  fileChanges : Option (List FileChange)
  createdAt : Nat
deriving Repr, DecidableEq

/-- file_snapshots table row, keyed by session, message and file path. -/
structure SnapshotRow where
  sessionId : String
  messageId : String
  filePath : Option String
  oldContent : Option String
  newContent : Option String
  changeType : String
deriving Repr, DecidableEq

/-- The SQLite database contents relevant to the orchestrator. -/
structure DB where
  sessions : List Session
  messages : List MessageRow
  snapshots : List SnapshotRow
deriving Repr, DecidableEq

/-- Database.updateSession updates object: each field present in the TS
updates object (not undefined) is some. -/
structure SessionUpdates where
  title : Option String := none
  hasUnread : Option Bool := none
  status : Option String := none
  logo : Option (Option String) := none
deriving Repr, DecidableEq

/-- Database.updateMessage updates object. -/
structure MessageUpdates where
  content : Option String := none
  thinking : Option String := none
  toolCalls : Option (List ToolCall) := none
  fileChanges : Option (List FileChange) := none
deriving Repr, DecidableEq

/-- Trace of write operations issued against the Database, used to state
exactly-once persistence properties. -/
inductive DBOp where
  | createSessionOp (s : Session)
  | updateSessionOp (id : String) (u : SessionUpdates) (now : Nat)
  | addMessageOp (m : MessageRow)
  | updateMessageOp (id : String) (u : MessageUpdates)
  | saveSnapshotOp (sessionId messageId : String) (change : FileChange)
deriving Repr, DecidableEq

end Accrew

namespace Accrew.Database

open Accrew

/-- Database.createSession: INSERT INTO sessions. -/
def createSession (db : DB) (s : Session) : DB :=
  { db with sessions := db.sessions ++ [s] }

/-- Database.getSession: SELECT by primary key. -/
def getSession (db : DB) (id : String) : Option Session :=
  db.sessions.find? (fun s => s.id = id)

/-- Descending insertion by updatedAt, modelling ORDER BY updated_at DESC
(the relative order of equal timestamps is unspecified by SQL). -/
def insertByUpdatedAt (s : Session) : List Session → List Session
  | [] => [s]
  | t :: rest =>
      if t.updatedAt < s.updatedAt then s :: t :: rest
      else t :: insertByUpdatedAt s rest

/-- Database.getSessions: SELECT * FROM sessions ORDER BY updated_at DESC. -/
def getSessions (db : DB) : List Session :=
  db.sessions.foldr insertByUpdatedAt []

/-- The row produced by Database.updateSession for the matching session:
present fields overwrite, and updated_at is always set to the currentclock
value, even when the updates object is empty. -/
def applySessionUpdate (s : Session) (u : SessionUpdates) (now : Nat) : Session :=
  { s with
    title := u.title.getD s.title
  , hasUnread := u.hasUnread.getD s.hasUnread
  , status := u.status.getD s.status
  , logo := u.logo.getD s.logo
  , updatedAt := now }

/-- Database.updateSession: UPDATE sessions SET field list, updated_at WHERE
id matches.  The now parameter is the Date.now() value read inside the
method. -/
def updateSession (db : DB) (id : String) (u : SessionUpdates) (now : Nat) : DB :=
  { db with sessions :=
      db.sessions.map (fun s => if s.id = id then applySessionUpdate s u now else s) }

/-- Database.archiveSession: UPDATE sessions SET status = archived,
updated_at = now WHERE id matches. -/
def archiveSession (db : DB) (id : String) (now : Nat) : DB :=
  { db with sessions :=
      db.sessions.map (fun s =>
        if s.id = id then { s with status := "archived", updatedAt := now } else s) }

/-- Database.unarchiveSession: UPDATE sessions SET status = active,
updated_at = now WHERE id matches. -/
def unarchiveSession (db : DB) (id : String) (now : Nat) : DB :=
  { db with sessions :=
      db.sessions.map (fun s =>
        if s.id = id then { s with status := "active", updatedAt := now } else s) }

/-- Database.addMessage: INSERT INTO messages.  The row is stored with the JS
or-null convention for thinking (empty string becomes NULL). -/
def addMessage (db : DB) (m : MessageRow) : DB :=
  { db with messages := db.messages ++
      [{ m with thinking := jsOr m.thinking none }] }

/-- Database.updateMessage: UPDATE messages SET present fields WHERE id
matches. -/
def updateMessage (db : DB) (id : String) (u : MessageUpdates) : DB :=
  { db with messages :=
      db.messages.map (fun m =>
        if m.id = id then
          { m with
            content := u.content.getD m.content
          , thinking := match u.thinking with | some t => some t | none => m.thinking
          , toolCalls := match u.toolCalls with | some t => some t | none => m.toolCalls
          , fileChanges := match u.fileChanges with | some t => some t | none => m.fileChanges }
        else m) }

/-- Database.getMessages: SELECT messages of a session (ordered by creation;
only the multiset content matters to the orchestrator, which uses counts). -/
def getMessages (db : DB) (sessionId : String) : List MessageRow :=
  db.messages.filter (fun m => m.sessionId = sessionId)

/-- Database.saveFileSnapshot: INSERT INTO file_snapshots with JS or-null
defaults for the optional contents. -/
def saveFileSnapshot (db : DB) (sessionId messageId : String) (change : FileChange) : DB :=
  { db with snapshots := db.snapshots ++
      [{ sessionId := sessionId, messageId := messageId
       , filePath := change.path
       , oldContent := jsOr change.oldContent none
       , newContent := jsOr change.newContent none
       , changeType := change.type }] }

end Accrew.Database

namespace Accrew.AgentManager

open Accrew

/-! ## AgentManager.sendMessage (agent-manager.ts lines 110 to 242)

External inputs of one turn are bundled into a TurnInput record: the two
generated uuids, every Date.now() reading, the adapter initialization
outcome, the normalized event stream (with abortSession calls interleaved at
their observed positions), a possible stream failure after the observed
events, and the title produced by the summarization call (none when the call
failed or produced an empty title, in which case the existing title is
kept). -/

structure TurnInput where
  userMsgId : String
  asstMsgId : String
  tUserMsg : Nat
  tTouch1 : Nat
  tAsstMsg : Nat
  initErr : Option String
  steps : List TurnStep
  streamErr : Option String
  titleRes : Option String
  tTitle : Nat
  tFinal : Nat
deriving Repr, DecidableEq

/-- The fresh ActiveSession record built by the lazy-rehydration branch of
sendMessage (and, with the same field values, by createSession when it
registers a new session). -/
def freshActive (session : Session) : ActiveSession :=
  { session := session, copilotClient := false, currentMessageId := none
  , thinking := "", toolCalls := [], fileChanges := [], content := ""
  , aborted := false }

/-- The session-state lookup at the top of sendMessage: use the existing
ActiveSession when present; otherwise rehydrate one from durable storage,
failing with the session-not-found error when the session row does not
exist. -/
def resolveActive (m : SessionMap) (db : DB) (sessionId : String) :
    Except String (SessionMap × ActiveSession) :=
  match getS m sessionId with
  | some active => .ok (m, active)
  | none =>
      match Database.getSession db sessionId with
      | none => .error "Session not found"
      | some session =>
          .ok (setS m sessionId (freshActive session), freshActive session)

/-- The updates object passed to Database.updateMessage at turn end: content
always, thinking with the JS or-undefined convention, tool calls and file
changes only when non-empty. -/
def finalUpdates (a : ActiveSession) : MessageUpdates :=
  { content := some a.content
  , thinking := if a.thinking = "" then none else some a.thinking
  , toolCalls := if a.toolCalls.length > 0 then some a.toolCalls else none
  , fileChanges := if a.fileChanges.length > 0 then some a.fileChanges else none }

/-- The result of one sendMessage call: final in-memory map, final database,
the trace of database write operations in issue order, and the emitted
renderer events in emission order. -/
structure TurnResult where
  m : SessionMap
  db : DB
  trace : List DBOp
  emits : List Emit
deriving Repr, DecidableEq

/-- The catch block of sendMessage: emit a turn error and mark the session
status error (no message finalization, no snapshots). -/
def catchPath (m : SessionMap) (db : DB) (tr : List DBOp) (em : List Emit)
    (sessionId e : String) (tFinal : Nat) : TurnResult :=
  { m := m
  , db := Database.updateSession db sessionId { status := some "error" } tFinal
  , trace := tr ++ [.updateSessionOp sessionId { status := some "error" } tFinal]
  , emits := em ++ [.errorE sessionId e] }

/-- The body of sendMessage after session-state resolution.  Mirrors the
source order: persist the user message; touch the session and notify; reset
the accumulator and allocate the assistant placeholder; create and
initialize the adapter client when absent; drive the stream through
handleStreamEvent; then on success finalize the assistant message, write one
snapshot per accumulated file change, run title summarization, emit
turn-done and touch the session (setting unread when not viewed); on any
adapter error, take the catch path. -/
def sendMessageBody (viewed : Option String) (m : SessionMap) (db : DB)
    (sessionId content : String) (inp : TurnInput) (active0 : ActiveSession) :
    TurnResult :=
  let userRow : MessageRow :=
    { id := inp.userMsgId, sessionId := sessionId, role := "user"
    , content := content, thinking := none, toolCalls := none
    , fileChanges := none, createdAt := inp.tUserMsg }
  let db := Database.addMessage db userRow
  let tr : List DBOp := [.addMessageOp userRow]
  let db := Database.updateSession db sessionId {} inp.tTouch1
  let tr := tr ++ [.updateSessionOp sessionId {} inp.tTouch1]
  let em : List Emit :=
    match Database.getSession db sessionId with
    | some s => [.sessionUpdatedE s]
    | none => []
  let active1 : ActiveSession :=
    { active0 with
        currentMessageId := some inp.asstMsgId,
        thinking := "",
        toolCalls := [],
        fileChanges := [],
        content := "",
        aborted := false }
  let m := setS m sessionId active1
  let asstRow : MessageRow :=
    { id := inp.asstMsgId, sessionId := sessionId, role := "assistant"
    , content := "", thinking := none, toolCalls := none
    , fileChanges := none, createdAt := inp.tAsstMsg }
  let db := Database.addMessage db asstRow
  let tr := tr ++ [.addMessageOp asstRow]
  let active2 := if active1.copilotClient then active1
    else { active1 with copilotClient := true }
  let m := setS m sessionId active2
  match (if active1.copilotClient then none else inp.initErr) with
  | some e => catchPath m db tr em sessionId e inp.tFinal
  | none =>
    let r := processSteps m sessionId inp.steps
    let m := r.1
    let em := em ++ r.2
    match inp.streamErr with
    | some e => catchPath m db tr em sessionId e inp.tFinal
    | none =>
      match getS m sessionId with
      | none => { m := m, db := db, trace := tr, emits := em }
      | some aEnd =>
        let db := Database.updateMessage db inp.asstMsgId (finalUpdates aEnd)
        let tr := tr ++ [.updateMessageOp inp.asstMsgId (finalUpdates aEnd)]
        let snapOps := aEnd.fileChanges.map
          (fun c => DBOp.saveSnapshotOp sessionId inp.asstMsgId c)
        let db := aEnd.fileChanges.foldl
          (fun d c => Database.saveFileSnapshot d sessionId inp.asstMsgId c) db
        let tr := tr ++ snapOps
        let msgs := Database.getMessages db sessionId
        let tRes : Option String :=
          if msgs.length ≤ 2 then (if msgs.length < 2 then none else inp.titleRes)
          else if msgs.length % 10 = 0 then (if msgs.length < 2 then none else inp.titleRes)
          else none
        let db := match tRes with
          | some t => Database.updateSession db sessionId { title := some t } inp.tTitle
          | none => db
        let tr := tr ++ (match tRes with
          | some t => [DBOp.updateSessionOp sessionId { title := some t } inp.tTitle]
          | none => [])
        let em := em ++ (match tRes with
          | some t => [Emit.titleUpdatedE sessionId t]
          | none => [])
        let em := em ++ [Emit.doneE sessionId inp.asstMsgId aEnd.thinking
          aEnd.content aEnd.toolCalls aEnd.fileChanges aEnd.aborted]
        let upd : SessionUpdates :=
          if viewed ≠ some sessionId then { hasUnread := some true } else {}
        let db := Database.updateSession db sessionId upd inp.tFinal
        let tr := tr ++ [.updateSessionOp sessionId upd inp.tFinal]
        let em := em ++ (match Database.getSession db sessionId with
          | some s => [Emit.sessionUpdatedE s]
          | none => [])
        { m := m, db := db, trace := tr, emits := em }

/-- AgentManager.sendMessage.  The only synchronously propagated failure is
the session-not-found error from resolution; every later failure is caught
inside the method and surfaced as a turn-error event. -/
def sendMessage (viewed : Option String) (m : SessionMap) (db : DB)
    (sessionId content : String) (inp : TurnInput) : Except String TurnResult :=
  match resolveActive m db sessionId with
  | .error e => .error e
  | .ok (m0, active0) => .ok (sendMessageBody viewed m0 db sessionId content inp active0)

end Accrew.AgentManager

namespace Accrew.AgentManager

open Accrew

/-! ## AgentManager.createSession (agent-manager.ts lines 41 to 108) -/

/-- The explicit-mention regex at the top of createSession, for single-line
prompts: a leading at-sign, a maximal non-whitespace name, whitespace, then
the remainder. -/
def parseMention (p : String) : Option (String × String) :=
  match p.data with
  | '@' :: rest =>
      let name := rest.takeWhile (fun c => ¬ c.isWhitespace)
      if name.isEmpty then none
      else
        let after := (rest.drop name.length).dropWhile (fun c => c.isWhitespace)
        some (String.mk name, String.mk after)
  | _ => none

/-- AgentManager.detectNewProjectIntent: substring match of the lowercased
prompt against a fixed keyword list. -/
def detectNewProjectIntent (prompt : String) : Bool :=
  let promptLower := strLower prompt
  [ "create a new", "start a new", "build a new", "make a new",
    "initialize", "scaffold", "bootstrap", "set up a new",
    "new project", "new app", "new application", "new repo"
  ].any (fun keyword => strIncludes promptLower keyword)

/-- The guard of the match-tier branch in createSession: the matched
workspace is used only when present and with confidence strictly above
0.7. -/
def acceptMatch (mt : WorkspaceMatch) : Option Workspace :=
  if mt.workspace.isSome ∧ mt.confidence > mkRat 7 10 then mt.workspace else none

/-- Result of createSession: the persisted session, the in-memory state, and
the effective prompt handed to the asynchronous first sendMessage call. -/
structure CreateSessionResult where
  session : Session
  m : SessionMap
  db : DB
  firstTurnPrompt : String
deriving Repr, DecidableEq

/-- AgentManager.createSession.  External collaborators appear as parameters:
getW is WorkspaceManager.getWorkspace, wsFolder the configured workspace
root, randomName the WorkspaceManager.generateRandomName draw, workspaces
and llm the inputs of the matchWorkspace tier, now the Date.now reading.
The initial prompt is then sent asynchronously through sendMessage; its
effective text is returned in firstTurnPrompt. -/
def createSession (getW : String → Option Workspace) (wsFolder : String)
    (randomName : String) (workspaces : List Workspace) (llm : Option ParsedLLM)
    (workspaceName0 : Option String) (prompt0 : String) (sessionId : String)
    (now : Nat) (db : DB) (m : SessionMap) : CreateSessionResult :=
  let mention := parseMention prompt0
  let workspaceName : Option String :=
    match mention with
    | some (n, _) => some n
    | none => workspaceName0
  let prompt : String :=
    match mention with
    | some (_, r) => if r = "" then prompt0 else r
    | none => prompt0
  let isNewProject := detectNewProjectIntent prompt
  let resolved : Option Workspace × Option String × Option String :=
    if isNewProject ∧ ¬ truthy workspaceName then
      (getW randomName, some (wsFolder ++ "/" ++ randomName), some randomName)
    else if truthy workspaceName then
      let w := getW (workspaceName.getD "")
      (w, jsOr (w.map (fun x => x.path)) none, workspaceName)
    else
      match acceptMatch (matchWorkspace workspaces prompt llm) with
      | some w => (some w, some w.path, some w.displayName)
      | none => (none, none, workspaceName)
  let workspace := resolved.1
  let workspacePath := resolved.2.1
  let wName := resolved.2.2
  let session : Session :=
    { id := sessionId,
      title := "New conversation",
      workspace := jsOr (workspace.map (fun w => w.displayName)) (jsOr wName none),
      workspacePath := workspacePath,
      logo := jsOr (workspace.bind (fun w => w.logo)) none,
      createdAt := now,
      updatedAt := now,
      hasUnread := false,
      status := "active" }
  { session := session,
    m := setS m sessionId (freshActive session),
    db := Database.createSession db session,
    firstTurnPrompt := prompt }

end Accrew.AgentManager

namespace Accrew.CopilotClient

/-! ## CopilotClient.init (copilot-client.ts lines 232 to 257)

The createSession call of the SDK is raced against a 30-second timer whose
rejection carries a descriptive, user-actionable message.  The race is
modelled by the instant at which the SDK call would settle: none when it
would hang forever, some t when it settles after t milliseconds.  A tie at
exactly the timeout instant is resolved toward the timer. -/

/-- The timeout bound of the initialization race, in milliseconds. -/
def initTimeoutMs : Nat := 30000

/-- The rejection message of the timeout promise. -/
def initTimeoutMessage : String :=
  "Copilot CLI failed to start within 30 seconds. This may happen if GitHub Copilot authentication is missing or blocked. Try running \"copilot auth login\" in your terminal."

/-- CopilotClient.init as the Promise.race of the SDK session creation and
the 30-second timeout: the result is ok exactly when the SDK settles before
the timer fires, and the descriptive error otherwise — in particular the
call never remains pending forever. -/
def init (sessionReadyAt : Option Nat) : Except String Unit :=
  match sessionReadyAt with
  | some t => if t < initTimeoutMs then .ok () else .error initTimeoutMessage
  | none => .error initTimeoutMessage

end Accrew.CopilotClient

namespace Accrew

/-! ## Trace and emit classifiers used by the persistence properties -/

/-- Classifier: an INSERT of an assistant-role message row. -/
def DBOp.isAssistantAdd : DBOp → Bool
  | .addMessageOp m => m.role = "assistant"
  | _ => false

/-- Classifier: an UPDATE of a message row. -/
def DBOp.isMessageUpdate : DBOp → Bool
  | .updateMessageOp _ _ => true
  | _ => false

/-- Classifier: an INSERT of a file snapshot row. -/
def DBOp.isSnapshotWrite : DBOp → Bool
  | .saveSnapshotOp _ _ _ => true
  | _ => false

/-- Classifier: a turn-done event. -/
def Emit.isDone : Emit → Bool
  | .doneE _ _ _ _ _ _ _ => true
  | _ => false

/-- Classifier: a turn-error event. -/
def Emit.isError : Emit → Bool
  | .errorE _ _ => true
  | _ => false

end Accrew

namespace Accrew.AgentManager

open Accrew

/-! ## Frame lemmas for the activeSessions map -/

theorem getS_setS_same (m : SessionMap) (sid : String) (a : ActiveSession) :
    getS (setS m sid a) sid = some a := by
  induction m with
  | nil => simp [getS, setS]
  | cons hd tl ih =>
      by_cases h : hd.1 = sid
      · simp [getS, setS, h]
      · simp [getS, setS, h, ih]

theorem getS_setS_ne (m : SessionMap) (sid sid2 : String) (a : ActiveSession)
    (h : sid2 ≠ sid) : getS (setS m sid a) sid2 = getS m sid2 := by
  have h2 : sid ≠ sid2 := Ne.symm h
  induction m with
  | nil => simp [getS, setS, h2]
  | cons hd tl ih =>
      by_cases hh : hd.1 = sid
      · subst hh
        simp [getS, setS, h2]
      · simp only [setS, if_neg hh, getS, ih]

/-- The action of one turn step on the per-session state, seen through the
map: stream events apply the accumulator mutation, an abort call sets the
aborted flag when an adapter client is attached. -/
def applyStep (a : ActiveSession) : TurnStep → ActiveSession
  | .ev e => applyEvent a e
  | .abortCall => if a.copilotClient then { a with aborted := true } else a

/-- Folding a whole step sequence over one session state. -/
def applySteps (a : ActiveSession) : List TurnStep → ActiveSession
  | [] => a
  | st :: rest => applySteps (applyStep a st) rest

theorem getS_handleStreamEvent_same (m : SessionMap) (sid : String) (e : StreamEvent) :
    getS (handleStreamEvent m sid e).1 sid = (getS m sid).map (fun a => applyEvent a e) := by
  unfold handleStreamEvent
  cases h : getS m sid with
  | none => simp [h]
  | some a => simp [h, getS_setS_same]

theorem getS_handleStreamEvent_ne (m : SessionMap) (sid sid2 : String) (e : StreamEvent)
    (h : sid2 ≠ sid) : getS (handleStreamEvent m sid e).1 sid2 = getS m sid2 := by
  unfold handleStreamEvent
  cases hh : getS m sid with
  | none => simp
  | some a => simp [getS_setS_ne _ _ _ _ h]

theorem getS_abortSession_same (m : SessionMap) (sid : String) :
    getS (abortSession m sid) sid =
      (getS m sid).map (fun a => if a.copilotClient then { a with aborted := true } else a) := by
  unfold abortSession
  cases h : getS m sid with
  | none => simp [h]
  | some a =>
      by_cases hc : a.copilotClient
      · simp [h, hc, getS_setS_same]
      · simp [h, hc]

theorem getS_abortSession_ne (m : SessionMap) (sid sid2 : String) (h : sid2 ≠ sid) :
    getS (abortSession m sid) sid2 = getS m sid2 := by
  unfold abortSession
  cases hh : getS m sid with
  | none => simp
  | some a =>
      by_cases hc : a.copilotClient
      · simp [hc, getS_setS_ne _ _ _ _ h]
      · simp [hc]

theorem getS_processSteps_same (steps : List TurnStep) (m : SessionMap) (sid : String) :
    getS (processSteps m sid steps).1 sid = (getS m sid).map (fun a => applySteps a steps) := by
  induction steps generalizing m with
  | nil => simp [processSteps, applySteps]
  | cons st rest ih =>
      cases st with
      | ev e =>
          simp only [processSteps]
          rw [ih, getS_handleStreamEvent_same]
          cases getS m sid <;> simp [applySteps, applyStep]
      | abortCall =>
          simp only [processSteps]
          rw [ih, getS_abortSession_same]
          cases getS m sid <;> simp [applySteps, applyStep]

theorem getS_processSteps_ne (steps : List TurnStep) (m : SessionMap) (sid sid2 : String)
    (h : sid2 ≠ sid) : getS (processSteps m sid steps).1 sid2 = getS m sid2 := by
  induction steps generalizing m with
  | nil => simp [processSteps]
  | cons st rest ih =>
      cases st with
      | ev e =>
          simp only [processSteps]
          rw [ih, getS_handleStreamEvent_ne _ _ _ _ h]
      | abortCall =>
          simp only [processSteps]
          rw [ih, getS_abortSession_ne _ _ _ h]

end Accrew.AgentManager

namespace Accrew.AgentManager

open Accrew

/-! ## Characterization of the success path of sendMessage -/

/-- The accumulator state at stream start: buffers reset, a fresh message id
allocated, the aborted flag cleared, and an adapter client attached. -/
def streamStart (active0 : ActiveSession) (inp : TurnInput) : ActiveSession :=
  { active0 with
      currentMessageId := some inp.asstMsgId,
      thinking := "",
      toolCalls := [],
      fileChanges := [],
      content := "",
      aborted := false,
      copilotClient := true }

/-- The accumulator contents at turn end: the reset state folded over the
whole observed step sequence. -/
def turnEndState (active0 : ActiveSession) (inp : TurnInput) : ActiveSession :=
  applySteps (streamStart active0 inp) inp.steps

/-- The user message row persisted at the top of sendMessage. -/
def userRowOf (sessionId content : String) (inp : TurnInput) : MessageRow :=
  { id := inp.userMsgId, sessionId := sessionId, role := "user"
  , content := content, thinking := none, toolCalls := none
  , fileChanges := none, createdAt := inp.tUserMsg }

/-- The empty placeholder assistant message row persisted at turn start. -/
def asstRowOf (sessionId : String) (inp : TurnInput) : MessageRow :=
  { id := inp.asstMsgId, sessionId := sessionId, role := "assistant"
  , content := "", thinking := none, toolCalls := none
  , fileChanges := none, createdAt := inp.tAsstMsg }

/-- The result of a sendMessage turn that reaches the finalization step (no
adapter failure): the same let chain as sendMessageBody with the failure
matches resolved to their success branches and the final accumulator lookup
resolved through the frame lemmas. -/
def successResult (viewed : Option String) (m : SessionMap) (db : DB)
    (sessionId content : String) (inp : TurnInput) (active0 : ActiveSession) :
    TurnResult :=
  let userRow := userRowOf sessionId content inp
  let db := Database.addMessage db userRow
  let tr : List DBOp := [.addMessageOp userRow]
  let db := Database.updateSession db sessionId {} inp.tTouch1
  let tr := tr ++ [.updateSessionOp sessionId {} inp.tTouch1]
  let em : List Emit :=
    match Database.getSession db sessionId with
    | some s => [.sessionUpdatedE s]
    | none => []
  let active1 : ActiveSession :=
    { active0 with
        currentMessageId := some inp.asstMsgId,
        thinking := "",
        toolCalls := [],
        fileChanges := [],
        content := "",
        aborted := false }
  let m := setS m sessionId active1
  let asstRow := asstRowOf sessionId inp
  let db := Database.addMessage db asstRow
  let tr := tr ++ [.addMessageOp asstRow]
  let m := setS m sessionId (streamStart active0 inp)
  let r := processSteps m sessionId inp.steps
  let m := r.1
  let em := em ++ r.2
  let aEnd := turnEndState active0 inp
  let db := Database.updateMessage db inp.asstMsgId (finalUpdates aEnd)
  let tr := tr ++ [.updateMessageOp inp.asstMsgId (finalUpdates aEnd)]
  let snapOps := aEnd.fileChanges.map
    (fun c => DBOp.saveSnapshotOp sessionId inp.asstMsgId c)
  let db := aEnd.fileChanges.foldl
    (fun d c => Database.saveFileSnapshot d sessionId inp.asstMsgId c) db
  let tr := tr ++ snapOps
  let msgs := Database.getMessages db sessionId
  let tRes : Option String :=
    if msgs.length ≤ 2 then (if msgs.length < 2 then none else inp.titleRes)
    else if msgs.length % 10 = 0 then (if msgs.length < 2 then none else inp.titleRes)
    else none
  let db := match tRes with
    | some t => Database.updateSession db sessionId { title := some t } inp.tTitle
    | none => db
  let tr := tr ++ (match tRes with
    | some t => [DBOp.updateSessionOp sessionId { title := some t } inp.tTitle]
    | none => [])
  let em := em ++ (match tRes with
    | some t => [Emit.titleUpdatedE sessionId t]
    | none => [])
  let em := em ++ [Emit.doneE sessionId inp.asstMsgId aEnd.thinking
    aEnd.content aEnd.toolCalls aEnd.fileChanges aEnd.aborted]
  let upd : SessionUpdates :=
    if viewed ≠ some sessionId then { hasUnread := some true } else {}
  let db := Database.updateSession db sessionId upd inp.tFinal
  let tr := tr ++ [.updateSessionOp sessionId upd inp.tFinal]
  let em := em ++ (match Database.getSession db sessionId with
    | some s => [Emit.sessionUpdatedE s]
    | none => [])
  { m := m, db := db, trace := tr, emits := em }

theorem copilotClient_eta (a : ActiveSession) (h : a.copilotClient = true) :
    { a with copilotClient := true } = a := by
  cases a
  simp_all

theorem sendMessageBody_success (viewed : Option String) (m : SessionMap) (db : DB)
    (sessionId content : String) (inp : TurnInput) (active0 : ActiveSession)
    (hInit : active0.copilotClient = true ∨ inp.initErr = none)
    (hStream : inp.streamErr = none) :
    sendMessageBody viewed m db sessionId content inp active0 =
      successResult viewed m db sessionId content inp active0 := by
  obtain ⟨sess, cop, cmid, th, tcs, fcs, cont, ab⟩ := active0
  unfold sendMessageBody successResult
  have hget : ∀ (mm : SessionMap) (a2 : ActiveSession),
      getS (processSteps (setS mm sessionId a2) sessionId inp.steps).1 sessionId =
        some (applySteps a2 inp.steps) := by
    intro mm a2
    rw [getS_processSteps_same, getS_setS_same]
    rfl
  cases cop with
  | true =>
      simp only [hStream, streamStart, turnEndState, if_pos, hget]
      rfl
  | false =>
      have h0 : inp.initErr = none := by
        rcases hInit with h | h
        · simp at h
        · exact h
      simp only [hStream, h0, streamStart, turnEndState, hget, if_neg, Bool.false_eq_true,
        not_false_iff, if_false]
      rfl

end Accrew.AgentManager

namespace Accrew.AgentManager

open Accrew

/-! ## Supporting lemmas about the accumulator step function -/

theorem applyEvent_copilot (a : ActiveSession) (e : StreamEvent) :
    (applyEvent a e).copilotClient = a.copilotClient := by
  cases e with
  | thinking c => rfl
  | tool_call id name args =>
      by_cases h : truthy id ∧ truthy name <;> simp [applyEvent, h]
  | tool_result tcid res =>
      cases tcid with
      | none => rfl
      | some i =>
          simp only [applyEvent]
          cases hf : a.toolCalls.find? (fun t => t.id = i) with
          | none => rfl
          | some tc => cases hc : inferChange tc <;> simp [*]
  | text c => rfl

theorem applyEvent_aborted (a : ActiveSession) (e : StreamEvent) :
    (applyEvent a e).aborted = a.aborted := by
  cases e with
  | thinking c => rfl
  | tool_call id name args =>
      by_cases h : truthy id ∧ truthy name <;> simp [applyEvent, h]
  | tool_result tcid res =>
      cases tcid with
      | none => rfl
      | some i =>
          simp only [applyEvent]
          cases hf : a.toolCalls.find? (fun t => t.id = i) with
          | none => rfl
          | some tc => cases hc : inferChange tc <;> simp [*]
  | text c => rfl

theorem applyStep_aborted_mono (a : ActiveSession) (st : TurnStep)
    (h : a.aborted = true) : (applyStep a st).aborted = true := by
  cases st with
  | ev e => rw [applyStep, applyEvent_aborted]; exact h
  | abortCall =>
      by_cases hc : a.copilotClient <;> simp [applyStep, hc, h]

theorem applySteps_aborted_mono (steps : List TurnStep) (a : ActiveSession)
    (h : a.aborted = true) : (applySteps a steps).aborted = true := by
  induction steps generalizing a with
  | nil => exact h
  | cons st rest ih => exact ih _ (applyStep_aborted_mono _ _ h)

theorem applyStep_copilot (a : ActiveSession) (st : TurnStep) :
    (applyStep a st).copilotClient = a.copilotClient := by
  cases st with
  | ev e => exact applyEvent_copilot a e
  | abortCall => by_cases hc : a.copilotClient <;> simp [applyStep, hc]

/-- Once an abortSession call occurs in the step sequence of a session whose
adapter client is attached, the aborted flag is set at the end of the
sequence. -/
theorem applySteps_aborted_of_abortCall (steps : List TurnStep) (a : ActiveSession)
    (hc : a.copilotClient = true) (h : TurnStep.abortCall ∈ steps) :
    (applySteps a steps).aborted = true := by
  induction steps generalizing a with
  | nil => cases h
  | cons st rest ih =>
      rcases List.mem_cons.mp h with h1 | h1
      · subst h1
        exact applySteps_aborted_mono rest _ (by simp [applyStep, hc])
      · exact ih _ (by rw [applyStep_copilot]; exact hc) h1

/-- The aborted flag is never read by the accumulator mutation: the state
update commutes with setting the flag. -/
theorem applyEvent_ignores_aborted (a : ActiveSession) (e : StreamEvent) :
    applyEvent { a with aborted := true } e = { applyEvent a e with aborted := true } := by
  cases e with
  | thinking c => rfl
  | tool_call id name args =>
      by_cases h : truthy id ∧ truthy name <;> simp [applyEvent, h]
  | tool_result tcid res =>
      cases tcid with
      | none => rfl
      | some i =>
          simp only [applyEvent]
          cases hf : a.toolCalls.find? (fun t => t.id = i) with
          | none => rfl
          | some tc => cases hc : inferChange tc <;> simp [*]
  | text c => rfl

/-- The aborted flag is never read when computing the emitted events
either. -/
theorem emitsOf_ignores_aborted (sid : String) (a : ActiveSession) (e : StreamEvent) :
    emitsOf sid { a with aborted := true } e = emitsOf sid a e := by
  cases e <;> rfl

end Accrew.AgentManager

namespace Accrew.AgentManager

open Accrew

/-! ## Shape of the success-path trace and emits -/

theorem filter_snap_map (sid mid : String) (l : List FileChange) :
    (l.map (fun c => DBOp.saveSnapshotOp sid mid c)).filter DBOp.isSnapshotWrite =
      l.map (fun c => DBOp.saveSnapshotOp sid mid c) := by
  induction l with
  | nil => rfl
  | cons c rest ih => simp [DBOp.isSnapshotWrite, ih]

theorem filter_not_snap_map (p : DBOp → Bool)
    (hp : ∀ sid mid c, p (DBOp.saveSnapshotOp sid mid c) = false)
    (sid mid : String) (l : List FileChange) :
    (l.map (fun c => DBOp.saveSnapshotOp sid mid c)).filter p = [] := by
  induction l with
  | nil => rfl
  | cons c rest ih => simp [hp, ih]

/-- For a turn that reaches finalization, the database-operation trace
creates exactly one assistant row (the empty placeholder), issues exactly one
message update (carrying the accumulator contents), writes exactly one
snapshot per accumulated file change and none before the message update, the
final in-memory state is the step-sequence fold, and a single turn-done event
carrying the final accumulator and aborted flag is emitted. -/
theorem successResult_shape (viewed : Option String) (m : SessionMap) (db : DB)
    (sessionId content : String) (inp : TurnInput) (active0 : ActiveSession) :
    (successResult viewed m db sessionId content inp active0).trace.filter DBOp.isAssistantAdd =
        [.addMessageOp (asstRowOf sessionId inp)] ∧
    (successResult viewed m db sessionId content inp active0).trace.filter DBOp.isMessageUpdate =
        [.updateMessageOp inp.asstMsgId (finalUpdates (turnEndState active0 inp))] ∧
    (successResult viewed m db sessionId content inp active0).trace.filter DBOp.isSnapshotWrite =
        (turnEndState active0 inp).fileChanges.map
          (fun c => DBOp.saveSnapshotOp sessionId inp.asstMsgId c) ∧
    (∃ pre post,
        (successResult viewed m db sessionId content inp active0).trace =
          pre ++ DBOp.updateMessageOp inp.asstMsgId (finalUpdates (turnEndState active0 inp)) ::
            ((turnEndState active0 inp).fileChanges.map
              (fun c => DBOp.saveSnapshotOp sessionId inp.asstMsgId c) ++ post) ∧
        pre.filter DBOp.isSnapshotWrite = [] ∧ post.filter DBOp.isSnapshotWrite = []) ∧
    getS (successResult viewed m db sessionId content inp active0).m sessionId =
        some (turnEndState active0 inp) ∧
    Emit.doneE sessionId inp.asstMsgId (turnEndState active0 inp).thinking
        (turnEndState active0 inp).content (turnEndState active0 inp).toolCalls
        (turnEndState active0 inp).fileChanges (turnEndState active0 inp).aborted ∈
      (successResult viewed m db sessionId content inp active0).emits := by
  unfold successResult
  simp only []
  generalize hT : (if _ ≤ 2 then _ else _ : Option String) = tRes
  have hget : ∀ mm : SessionMap,
      getS (processSteps (setS mm sessionId (streamStart active0 inp))
        sessionId inp.steps).1 sessionId = some (turnEndState active0 inp) := by
    intro mm
    rw [getS_processSteps_same, getS_setS_same]
    rfl
  cases tRes with
  | none =>
      refine ⟨?_, ?_, ?_, ?_, ?_, ?_⟩
      · simp [DBOp.isAssistantAdd, DBOp.isMessageUpdate, DBOp.isSnapshotWrite,
          userRowOf, asstRowOf, filter_not_snap_map, List.filter_append]
      · simp [DBOp.isAssistantAdd, DBOp.isMessageUpdate, DBOp.isSnapshotWrite,
          userRowOf, asstRowOf, filter_not_snap_map, List.filter_append]
      · simp [DBOp.isAssistantAdd, DBOp.isMessageUpdate, DBOp.isSnapshotWrite,
          userRowOf, asstRowOf, filter_snap_map, List.filter_append]
      · exact ⟨[DBOp.addMessageOp (userRowOf sessionId content inp),
            DBOp.updateSessionOp sessionId {} inp.tTouch1,
            DBOp.addMessageOp (asstRowOf sessionId inp)],
          [DBOp.updateSessionOp sessionId
            (if viewed ≠ some sessionId then { hasUnread := some true } else {}) inp.tFinal],
          by simp, by simp [DBOp.isSnapshotWrite], by simp [DBOp.isSnapshotWrite]⟩
      · exact hget _
      · simp
  | some t =>
      refine ⟨?_, ?_, ?_, ?_, ?_, ?_⟩
      · simp [DBOp.isAssistantAdd, DBOp.isMessageUpdate, DBOp.isSnapshotWrite,
          userRowOf, asstRowOf, filter_not_snap_map, List.filter_append]
      · simp [DBOp.isAssistantAdd, DBOp.isMessageUpdate, DBOp.isSnapshotWrite,
          userRowOf, asstRowOf, filter_not_snap_map, List.filter_append]
      · simp [DBOp.isAssistantAdd, DBOp.isMessageUpdate, DBOp.isSnapshotWrite,
          userRowOf, asstRowOf, filter_snap_map, List.filter_append]
      · exact ⟨[DBOp.addMessageOp (userRowOf sessionId content inp),
            DBOp.updateSessionOp sessionId {} inp.tTouch1,
            DBOp.addMessageOp (asstRowOf sessionId inp)],
          [DBOp.updateSessionOp sessionId { title := some t } inp.tTitle,
           DBOp.updateSessionOp sessionId
            (if viewed ≠ some sessionId then { hasUnread := some true } else {}) inp.tFinal],
          by simp, by simp [DBOp.isSnapshotWrite], by simp [DBOp.isSnapshotWrite]⟩
      · exact hget _
      · simp

end Accrew.AgentManager

namespace Accrew

open Accrew.AgentManager Accrew.Database

/-! ## Support lemmas for the routing and persistence claims -/

theorem fallbackMatch_confidence (promptLower : String) (workspaces : List Workspace)
    (h : (AgentManager.fallbackMatch promptLower workspaces).workspace.isSome = true) :
    (AgentManager.fallbackMatch promptLower workspaces).confidence = mkRat 8 10 := by
  induction workspaces with
  | nil => simp [AgentManager.fallbackMatch] at h
  | cons w rest ih =>
      rw [AgentManager.fallbackMatch] at h ⊢
      revert h
      split
      · intro _; rfl
      · exact ih

theorem find_update_by_id (l : List Session) (id : String) (f : Session → Session)
    (hf : ∀ s, (f s).id = s.id) (s : Session)
    (h : l.find? (fun x => x.id = id) = some s) :
    (l.map (fun t => if t.id = id then f t else t)).find? (fun x => x.id = id) =
      some (f s) := by
  induction l with
  | nil => simp at h
  | cons hd tl ih =>
      by_cases hh : hd.id = id
      · rw [List.find?_cons_of_pos _ (by simp [hh])] at h
        obtain rfl : hd = s := by injection h
        simp only [List.map_cons, if_pos hh]
        exact List.find?_cons_of_pos _ (by simp [hf, hh])
      · rw [List.find?_cons_of_neg _ (by simp [hh])] at h
        simp only [List.map_cons, if_neg hh]
        rw [List.find?_cons_of_neg _ (by simp [hh])]
        exact ih h

theorem getSession_updateSession (db : DB) (id : String) (u : SessionUpdates)
    (now : Nat) (s : Session) (h : Database.getSession db id = some s) :
    Database.getSession (Database.updateSession db id u now) id =
      some (applySessionUpdate s u now) := by
  unfold Database.getSession Database.updateSession at *
  exact find_update_by_id db.sessions id (fun s => applySessionUpdate s u now)
    (fun s => rfl) s h

theorem getSession_archiveSession (db : DB) (id : String) (now : Nat) (s : Session)
    (h : Database.getSession db id = some s) :
    Database.getSession (Database.archiveSession db id now) id =
      some { s with status := "archived", updatedAt := now } := by
  unfold Database.getSession Database.archiveSession at *
  exact find_update_by_id db.sessions id
    (fun s => { s with status := "archived", updatedAt := now }) (fun s => rfl) s h

theorem getSession_unarchiveSession (db : DB) (id : String) (now : Nat) (s : Session)
    (h : Database.getSession db id = some s) :
    Database.getSession (Database.unarchiveSession db id now) id =
      some { s with status := "active", updatedAt := now } := by
  unfold Database.getSession Database.unarchiveSession at *
  exact find_update_by_id db.sessions id
    (fun s => { s with status := "active", updatedAt := now }) (fun s => rfl) s h

theorem foldl_saveFileSnapshot_messages (l : List FileChange) (db : DB)
    (sid mid : String) :
    (l.foldl (fun d c => Database.saveFileSnapshot d sid mid c) db).messages =
      db.messages := by
  induction l generalizing db with
  | nil => rfl
  | cons c rest ih => rw [List.foldl_cons, ih]; rfl

theorem find_mapped_last (g : MessageRow → MessageRow) (hg : ∀ mr, (g mr).id = mr.id)
    (asstId : String) (a : MessageRow) (ha : a.id = asstId) :
    ∀ l : List MessageRow, (∀ mr ∈ l, mr.id ≠ asstId) →
      ((l ++ [a]).map (fun mr => if mr.id = asstId then g mr else mr)).find?
        (fun mr => mr.id = asstId) = some (g a)
  | [], _ => by
      simp only [List.nil_append, List.map_cons, List.map_nil, if_pos ha]
      exact List.find?_cons_of_pos _ (by simp [hg, ha])
  | hd :: tl, hl => by
      have hhd : hd.id ≠ asstId := hl hd (by simp)
      simp only [List.cons_append, List.map_cons, if_neg hhd]
      rw [List.find?_cons_of_neg _ (by simp [hhd])]
      exact find_mapped_last g hg asstId a ha tl (fun mr hm => hl mr (by simp [hm]))

/-- The assistant placeholder row, as finalized by the updateMessage call at
turn end: read back with the undefined-as-empty convention of rowToMessage,
its content, tool calls and file changes are exactly the accumulator
contents. -/
theorem successResult_finalized_row (viewed : Option String) (m : SessionMap) (db : DB)
    (sessionId content : String) (inp : TurnInput) (active0 : ActiveSession)
    (hFresh : ∀ mr ∈ db.messages, mr.id ≠ inp.asstMsgId)
    (hIds : inp.userMsgId ≠ inp.asstMsgId) :
    ∃ row, (AgentManager.successResult viewed m db sessionId content inp active0).db.messages.find?
        (fun mr => mr.id = inp.asstMsgId) = some row ∧
      row.content = (AgentManager.turnEndState active0 inp).content ∧
      row.toolCalls.getD [] = (AgentManager.turnEndState active0 inp).toolCalls ∧
      row.fileChanges.getD [] = (AgentManager.turnEndState active0 inp).fileChanges := by
  set aEnd := AgentManager.turnEndState active0 inp with haEnd
  set u := AgentManager.finalUpdates aEnd with hu
  set g : MessageRow → MessageRow := fun mr =>
    { mr with
        content := u.content.getD mr.content
      , thinking := match u.thinking with | some t => some t | none => mr.thinking
      , toolCalls := match u.toolCalls with | some t => some t | none => mr.toolCalls
      , fileChanges := match u.fileChanges with | some t => some t | none => mr.fileChanges }
    with hg
  set userStored : MessageRow :=
    { AgentManager.userRowOf sessionId content inp with thinking := none } with huser
  set asstStored : MessageRow :=
    { AgentManager.asstRowOf sessionId inp with thinking := none } with hasst
  have hmsgs : (AgentManager.successResult viewed m db sessionId content inp active0).db.messages =
      ((db.messages ++ [userStored]) ++ [asstStored]).map
        (fun mr => if mr.id = inp.asstMsgId then g mr else mr) := by
    unfold AgentManager.successResult
    simp only []
    generalize (if _ ≤ 2 then _ else _ : Option String) = tRes
    cases tRes <;>
      simp [Database.updateSession, Database.addMessage, Database.updateMessage,
        foldl_saveFileSnapshot_messages, AgentManager.userRowOf, AgentManager.asstRowOf,
        jsOr, truthy, huser, hasst, hg, hu]
  have hfind : (((db.messages ++ [userStored]) ++ [asstStored]).map
      (fun mr => if mr.id = inp.asstMsgId then g mr else mr)).find?
        (fun mr => mr.id = inp.asstMsgId) = some (g asstStored) := by
    have hl : ∀ mr ∈ db.messages ++ [userStored], mr.id ≠ inp.asstMsgId := by
      intro mr hm
      rcases List.mem_append.mp hm with hm | hm
      · exact hFresh mr hm
      · simp only [List.mem_singleton] at hm
        subst hm
        simpa [huser, AgentManager.userRowOf] using hIds
    exact find_mapped_last g (fun mr => rfl) inp.asstMsgId asstStored rfl
      (db.messages ++ [userStored]) hl
  refine ⟨g asstStored, by rw [hmsgs]; exact hfind, ?_, ?_, ?_⟩
  · simp [hg, hu, AgentManager.finalUpdates]
  · by_cases h : aEnd.toolCalls.length > 0
    · simp [hg, hu, AgentManager.finalUpdates, h]
    · have : aEnd.toolCalls = [] := List.eq_nil_of_length_eq_zero (Nat.eq_zero_of_not_pos h)
      simp [hg, hu, AgentManager.finalUpdates, h, hasst, AgentManager.asstRowOf, this]
  · by_cases h : aEnd.fileChanges.length > 0
    · simp [hg, hu, AgentManager.finalUpdates, h]
    · have : aEnd.fileChanges = [] := List.eq_nil_of_length_eq_zero (Nat.eq_zero_of_not_pos h)
      simp [hg, hu, AgentManager.finalUpdates, h, hasst, AgentManager.asstRowOf, this]

end Accrew



/-! # Claim theorems -/

open Accrew

/-- C1 counterexample: with a single workspace named billing, a parsed LLM
response naming that workspace at confidence 0.5 makes matchWorkspace
return a non-null workspace together with a confidence not exceeding 0.7,
because the LLM tier passes the reported confidence through unchecked. -/
theorem matchWorkspace_threshold_counterexample :
    (AgentManager.matchWorkspace [⟨"billing", "billing", "/w/billing", none, none, none⟩]
        "fix the bug" (some ⟨some "billing", some (mkRat 5 10), some "low"⟩)).workspace.isSome =
      true ∧
    (AgentManager.matchWorkspace [⟨"billing", "billing", "/w/billing", none, none, none⟩]
        "fix the bug" (some ⟨some "billing", some (mkRat 5 10), some "low"⟩)).confidence ≤
      mkRat 7 10 := by
  constructor
  · decide
  · decide

/-- C1 (amended): matchWorkspace enforces no threshold itself — through the
LLM tier the reported confidence is returned unchecked, so a workspace can
come back with confidence at or below 0.7; on the keyword-fallback path a
returned workspace always carries the fixed confidence 0.8 (which exceeds
0.7), and the 0.7 threshold is enforced at the use site: createSession
accepts a matched workspace only when the confidence is strictly above
0.7. -/
theorem matchWorkspace_threshold_amended (workspaces : List Workspace) (prompt : String)
    (mt : WorkspaceMatch)
    (hFB : (AgentManager.matchWorkspace workspaces prompt none).workspace.isSome = true)
    (hAcc : (AgentManager.acceptMatch mt).isSome = true) :
    (AgentManager.matchWorkspace workspaces prompt none).confidence = mkRat 8 10 ∧
      mkRat 7 10 < mkRat 8 10 ∧ mkRat 7 10 < mt.confidence := by
  refine ⟨?_, by decide, ?_⟩
  · unfold AgentManager.matchWorkspace at hFB ⊢
    by_cases he : workspaces.isEmpty
    · simp [he] at hFB
    · simp only [he, if_false] at hFB ⊢
      exact fallbackMatch_confidence _ _ hFB
  · unfold AgentManager.acceptMatch at hAcc
    by_cases hc : mt.workspace.isSome = true ∧ mt.confidence > mkRat 7 10
    · exact hc.2
    · simp only [hc] at hAcc
      simp at hAcc

/-- C1 witness. -/
theorem matchWorkspace_threshold_amended_witness :
    ((AgentManager.matchWorkspace [⟨"billing", "billing", "/w/billing", none, none, none⟩]
        "fix the billing page" none).workspace.isSome = true ∧
      (AgentManager.acceptMatch ⟨some ⟨"billing", "billing", "/w/billing", none, none, none⟩,
        mkRat 8 10, "r"⟩).isSome = true) ∧
    ((AgentManager.matchWorkspace [⟨"billing", "billing", "/w/billing", none, none, none⟩]
        "fix the billing page" none).confidence = mkRat 8 10 ∧
      mkRat 7 10 < mkRat 8 10 ∧
      mkRat 7 10 < (⟨some ⟨"billing", "billing", "/w/billing", none, none, none⟩,
        mkRat 8 10, "r"⟩ : WorkspaceMatch).confidence) :=
  ⟨⟨by decide, by decide⟩,
    matchWorkspace_threshold_amended _ _ _ (by decide) (by decide)⟩

/-- C5: handling a stream event addressed to session A rewrites exactly the
entry of A in the activeSessions map with the accumulator mutation, and
leaves the entry of every other session B — all its buffer fields included —
unchanged. -/
theorem handleStreamEvent_isolation (m : SessionMap) (A B : String) (e : StreamEvent)
    (h : B ≠ A) :
    getS (AgentManager.handleStreamEvent m A e).1 A =
        (getS m A).map (fun a => AgentManager.applyEvent a e) ∧
      getS (AgentManager.handleStreamEvent m A e).1 B = getS m B :=
  ⟨AgentManager.getS_handleStreamEvent_same m A e,
    AgentManager.getS_handleStreamEvent_ne m A B e h⟩

/-- C5 witness. -/
theorem handleStreamEvent_isolation_witness :
    (("s2" : String) ≠ "s1") ∧
    (getS (AgentManager.handleStreamEvent
          [("s1", AgentManager.freshActive ⟨"s1", "T", none, none, none, 0, 0, false, "active"⟩),
           ("s2", AgentManager.freshActive ⟨"s2", "U", none, none, none, 0, 0, false, "active"⟩)]
          "s1" (.text (some "x"))).1 "s1" =
        (getS [("s1", AgentManager.freshActive ⟨"s1", "T", none, none, none, 0, 0, false, "active"⟩),
           ("s2", AgentManager.freshActive ⟨"s2", "U", none, none, none, 0, 0, false, "active"⟩)]
          "s1").map (fun a => AgentManager.applyEvent a (.text (some "x"))) ∧
      getS (AgentManager.handleStreamEvent
          [("s1", AgentManager.freshActive ⟨"s1", "T", none, none, none, 0, 0, false, "active"⟩),
           ("s2", AgentManager.freshActive ⟨"s2", "U", none, none, none, 0, 0, false, "active"⟩)]
          "s1" (.text (some "x"))).1 "s2" =
        getS [("s1", AgentManager.freshActive ⟨"s1", "T", none, none, none, 0, 0, false, "active"⟩),
           ("s2", AgentManager.freshActive ⟨"s2", "U", none, none, none, 0, 0, false, "active"⟩)]
          "s2") :=
  ⟨by decide, handleStreamEvent_isolation _ "s1" "s2" (.text (some "x")) (by decide)⟩

/-- C6: CopilotClient.init races the SDK session creation against a
30000-millisecond timer; whenever the connection is not established within
the bound (it settles late or never), init resolves — it does not remain
pending — with the descriptive, user-actionable timeout error. -/
theorem copilot_init_timeout (r : Option Nat)
    (h : r = none ∨ ∃ t, r = some t ∧ CopilotClient.initTimeoutMs ≤ t) :
    CopilotClient.init r = .error CopilotClient.initTimeoutMessage ∧
      CopilotClient.initTimeoutMs = 30000 := by
  refine ⟨?_, rfl⟩
  rcases h with h | ⟨t, rfl, ht⟩
  · rw [h]; rfl
  · simp [CopilotClient.init, Nat.not_lt.mpr ht]

/-- C6 witness. -/
theorem copilot_init_timeout_witness :
    CopilotClient.init (some 30000) = .error CopilotClient.initTimeoutMessage ∧
      CopilotClient.initTimeoutMs = 30000 :=
  copilot_init_timeout (some 30000) (Or.inr ⟨30000, rfl, by decide⟩)

/-- C8 counterexample: a session whose status is completed, once archived and
unarchived, comes back with status active (and a fresh updatedAt), not with
its prior status — unarchiveSession writes the literal active
unconditionally. -/
theorem archive_toggle_counterexample :
    Database.getSession (Database.unarchiveSession (Database.archiveSession
        ⟨[⟨"s1", "T", none, none, none, 0, 0, false, "completed"⟩], [], []⟩ "s1" 5) "s1" 6)
        "s1" =
      some ⟨"s1", "T", none, none, none, 0, 6, false, "active"⟩ ∧
    ("active" : String) ≠ "completed" := by
  constructor
  · decide
  · decide

/-- C8 (amended): archiveSession overwrites status with archived and
unarchiveSession overwrites it with active, both touching updatedAt; the
archive followed by unarchive round trip therefore always ends in status
active — it restores the prior status only when that status was active, and
loses completed or error, because archived is a value of the single status
field rather than an orthogonal flag. -/
theorem archive_unarchive_roundtrip (db : DB) (id : String) (t1 t2 : Nat) (s : Session)
    (h : Database.getSession db id = some s) :
    Database.getSession (Database.unarchiveSession (Database.archiveSession db id t1) id t2)
        id = some { s with status := "active", updatedAt := t2 } ∧
      (s.status = "active" →
        Database.getSession (Database.unarchiveSession (Database.archiveSession db id t1) id t2)
          id = some { s with updatedAt := t2 }) := by
  have h1 := getSession_archiveSession db id t1 s h
  have h2 := getSession_unarchiveSession _ id t2 _ h1
  constructor
  · exact h2
  · intro hs
    rw [h2]
    cases s
    simp_all

/-- C8 witness. -/
theorem archive_unarchive_roundtrip_witness :
    Database.getSession ⟨[⟨"s1", "T", none, none, none, 0, 0, false, "completed"⟩], [], []⟩
        "s1" = some ⟨"s1", "T", none, none, none, 0, 0, false, "completed"⟩ ∧
    (Database.getSession (Database.unarchiveSession (Database.archiveSession
          ⟨[⟨"s1", "T", none, none, none, 0, 0, false, "completed"⟩], [], []⟩ "s1" 5) "s1" 6)
          "s1" =
        some { (⟨"s1", "T", none, none, none, 0, 0, false, "completed"⟩ : Session) with
          status := "active", updatedAt := 6 } ∧
      ((⟨"s1", "T", none, none, none, 0, 0, false, "completed"⟩ : Session).status = "active" →
        Database.getSession (Database.unarchiveSession (Database.archiveSession
            ⟨[⟨"s1", "T", none, none, none, 0, 0, false, "completed"⟩], [], []⟩ "s1" 5) "s1" 6)
            "s1" =
          some { (⟨"s1", "T", none, none, none, 0, 0, false, "completed"⟩ : Session) with
            updatedAt := 6 })) :=
  ⟨by decide, archive_unarchive_roundtrip _ "s1" 5 6 _ (by decide)⟩

/-- C10: every Database.updateSession call — the empty updates object
included — and every archiveSession or unarchiveSession call overwrites the
updatedAt of the target session with the clock value read inside the call;
under a monotone clock the value therefore never decreases, and when the
clock reading dominates every stored timestamp the mutated session carries
the maximal updatedAt, which places it first in the updatedAt-descending
ordering of getSessions. -/
theorem session_mutations_touch_updatedAt (db : DB) (id : String) (u : SessionUpdates)
    (now t1 t2 : Nat) (s : Session) (h : Database.getSession db id = some s) :
    (Database.getSession (Database.updateSession db id u now) id =
        some (Database.applySessionUpdate s u now) ∧
      (Database.applySessionUpdate s u now).updatedAt = now) ∧
    Database.getSession (Database.archiveSession db id t1) id =
      some { s with status := "archived", updatedAt := t1 } ∧
    Database.getSession (Database.unarchiveSession db id t2) id =
      some { s with status := "active", updatedAt := t2 } ∧
    (s.updatedAt ≤ now → s.updatedAt ≤ (Database.applySessionUpdate s u now).updatedAt) ∧
    ((∀ t ∈ db.sessions, t.updatedAt ≤ now) →
      ∀ t ∈ (Database.updateSession db id u now).sessions, t.updatedAt ≤ now) := by
  refine ⟨⟨getSession_updateSession db id u now s h, rfl⟩,
    getSession_archiveSession db id t1 s h,
    getSession_unarchiveSession db id t2 s h,
    fun hle => hle, ?_⟩
  intro hall t ht
  unfold Database.updateSession at ht
  simp only [] at ht
  rcases List.mem_map.mp ht with ⟨x, hx, rfl⟩
  by_cases hxi : x.id = id
  · simp [hxi, Database.applySessionUpdate]
  · simp only [if_neg hxi]
    exact hall x hx

/-- C10 witness. -/
theorem session_mutations_touch_updatedAt_witness :
    Database.getSession ⟨[⟨"s1", "T", none, none, none, 0, 3, false, "active"⟩], [], []⟩
        "s1" = some ⟨"s1", "T", none, none, none, 0, 3, false, "active"⟩ ∧
    ((Database.getSession (Database.updateSession
          ⟨[⟨"s1", "T", none, none, none, 0, 3, false, "active"⟩], [], []⟩ "s1" {} 7) "s1" =
        some (Database.applySessionUpdate
          ⟨"s1", "T", none, none, none, 0, 3, false, "active"⟩ {} 7) ∧
      (Database.applySessionUpdate
          ⟨"s1", "T", none, none, none, 0, 3, false, "active"⟩ {} 7).updatedAt = 7) ∧
    Database.getSession (Database.archiveSession
        ⟨[⟨"s1", "T", none, none, none, 0, 3, false, "active"⟩], [], []⟩ "s1" 8) "s1" =
      some { (⟨"s1", "T", none, none, none, 0, 3, false, "active"⟩ : Session) with
        status := "archived", updatedAt := 8 } ∧
    Database.getSession (Database.unarchiveSession
        ⟨[⟨"s1", "T", none, none, none, 0, 3, false, "active"⟩], [], []⟩ "s1" 9) "s1" =
      some { (⟨"s1", "T", none, none, none, 0, 3, false, "active"⟩ : Session) with
        status := "active", updatedAt := 9 } ∧
    ((⟨"s1", "T", none, none, none, 0, 3, false, "active"⟩ : Session).updatedAt ≤ 7 →
      (⟨"s1", "T", none, none, none, 0, 3, false, "active"⟩ : Session).updatedAt ≤
        (Database.applySessionUpdate
          ⟨"s1", "T", none, none, none, 0, 3, false, "active"⟩ {} 7).updatedAt) ∧
    ((∀ t ∈ (⟨[⟨"s1", "T", none, none, none, 0, 3, false, "active"⟩], [], []⟩ : DB).sessions,
        t.updatedAt ≤ 7) →
      ∀ t ∈ (Database.updateSession
          ⟨[⟨"s1", "T", none, none, none, 0, 3, false, "active"⟩], [], []⟩ "s1" {} 7).sessions,
        t.updatedAt ≤ 7)) :=
  ⟨by decide, session_mutations_touch_updatedAt _ "s1" {} 7 8 9 _ (by decide)⟩

/-- C4: when no ActiveSessionState exists for the session id, sendMessage
lazily rehydrates one from durable storage (registering a fresh state built
from the stored session row) and the call proceeds to a normal turn result;
it fails synchronously with the session-not-found error exactly when the
session row is absent from durable storage. -/
theorem sendMessage_lazy_rehydration (viewed : Option String) (m : SessionMap) (db : DB)
    (sid content : String) (inp : AgentManager.TurnInput) (hNo : getS m sid = none) :
    (∀ s, Database.getSession db sid = some s →
        AgentManager.resolveActive m db sid =
          .ok (setS m sid (AgentManager.freshActive s), AgentManager.freshActive s) ∧
        ∃ r, AgentManager.sendMessage viewed m db sid content inp = .ok r) ∧
    (AgentManager.sendMessage viewed m db sid content inp = .error "Session not found" ↔
      Database.getSession db sid = none) := by
  unfold AgentManager.sendMessage AgentManager.resolveActive
  rw [hNo]
  constructor
  · intro s hs
    rw [hs]
    exact ⟨rfl, _, rfl⟩
  · cases hs : Database.getSession db sid with
    | none => simp
    | some s => simp

/-- C4 witness. -/
theorem sendMessage_lazy_rehydration_witness :
    getS ([] : SessionMap) "s1" = none ∧
    ((∀ s, Database.getSession ⟨[⟨"s1", "T", none, none, none, 0, 0, false, "active"⟩], [], []⟩
          "s1" = some s →
        AgentManager.resolveActive [] ⟨[⟨"s1", "T", none, none, none, 0, 0, false, "active"⟩], [], []⟩
            "s1" =
          .ok (setS [] "s1" (AgentManager.freshActive s), AgentManager.freshActive s) ∧
        ∃ r, AgentManager.sendMessage none []
            ⟨[⟨"s1", "T", none, none, none, 0, 0, false, "active"⟩], [], []⟩ "s1" "hi"
            ⟨"u1", "a1", 1, 2, 3, none, [], none, none, 4, 5⟩ = .ok r) ∧
      (AgentManager.sendMessage none []
          ⟨[⟨"s1", "T", none, none, none, 0, 0, false, "active"⟩], [], []⟩ "s1" "hi"
          ⟨"u1", "a1", 1, 2, 3, none, [], none, none, 4, 5⟩ = .error "Session not found" ↔
        Database.getSession ⟨[⟨"s1", "T", none, none, none, 0, 0, false, "active"⟩], [], []⟩
          "s1" = none)) :=
  ⟨rfl, sendMessage_lazy_rehydration none [] _ "s1" "hi" _ rfl⟩

/-- C7 counterexample: the tool name file_writer contains the substring
write, so the claimed substring rule would record a created file change, but
the code compares tool names for exact equality against a fixed list and
infers no file change at all for this tool result. -/
theorem file_inference_substring_counterexample :
    (AgentManager.applyEvent
        ⟨⟨"s1", "T", none, none, none, 0, 0, false, "active"⟩, true, some "a1", "",
          [⟨"t1", "file_writer", [("path", "a.txt"), ("content", "x")], none, "running"⟩],
          [], "", false⟩
        (.tool_result (some "t1") (some "ok"))).fileChanges = [] ∧
    strIncludes "file_writer" "write" = true := by
  constructor
  · decide
  · decide

/-- C7 (amended): for every tool-call result event whose id matches a
recorded tool call, the accumulated file changes are extended by exactly the
outcome of the categorization table, and that table matches the lowercased
tool name by exact equality against fixed name lists — write_file,
create_file or create map to a created change, edit, edit_file,
replace_string_in_file or str_replace to a modified change, delete_file or
delete to a deleted change, and any other name produces no file-change
record and never an error; the file path is the first of the candidate
argument keys path then filePath carrying a non-empty value, via the JS
or-chain. -/
theorem tool_result_exact_name_table (a : ActiveSession) (tcid : String)
    (res : Option String) (tc : ToolCall)
    (hFind : a.toolCalls.find? (fun t => t.id = tcid) = some tc) :
    (AgentManager.applyEvent a (.tool_result (some tcid) res)).fileChanges =
        a.fileChanges ++ (AgentManager.inferChange tc).toList ∧
    (strLower tc.name = "write_file" ∨ strLower tc.name = "create_file" ∨
        strLower tc.name = "create" →
      AgentManager.inferChange tc = some
        ⟨jsOr (getArg tc.arguments "path") (getArg tc.arguments "filePath"), "created",
          none, some (jsOrD (getArg tc.arguments "content") "")⟩) ∧
    (strLower tc.name = "edit" ∨ strLower tc.name = "edit_file" ∨
        strLower tc.name = "replace_string_in_file" ∨ strLower tc.name = "str_replace" →
      AgentManager.inferChange tc = some
        ⟨jsOr (getArg tc.arguments "path") (getArg tc.arguments "filePath"), "modified",
          some (jsOrD (jsOr (getArg tc.arguments "oldString")
            (jsOr (getArg tc.arguments "old_str") (getArg tc.arguments "search"))) ""),
          some (jsOrD (jsOr (getArg tc.arguments "newString")
            (jsOr (getArg tc.arguments "new_str")
              (jsOr (getArg tc.arguments "replace") (getArg tc.arguments "content")))) "")⟩) ∧
    (strLower tc.name = "delete_file" ∨ strLower tc.name = "delete" →
      AgentManager.inferChange tc = some
        ⟨jsOr (getArg tc.arguments "path") (getArg tc.arguments "filePath"), "deleted",
          some "", none⟩) ∧
    (¬ (strLower tc.name = "write_file" ∨ strLower tc.name = "create_file" ∨
        strLower tc.name = "create" ∨ strLower tc.name = "edit" ∨
        strLower tc.name = "edit_file" ∨ strLower tc.name = "replace_string_in_file" ∨
        strLower tc.name = "str_replace" ∨ strLower tc.name = "delete_file" ∨
        strLower tc.name = "delete") →
      AgentManager.inferChange tc = none) := by
  refine ⟨?_, ?_, ?_, ?_, ?_⟩
  · simp only [AgentManager.applyEvent, hFind]
    cases hc : AgentManager.inferChange tc <;> simp [hc]
  · intro h
    unfold AgentManager.inferChange
    simp only []
    rw [if_pos h]
  · intro h
    unfold AgentManager.inferChange
    simp only []
    rcases h with h | h | h | h <;>
      rw [h] <;> rw [if_neg (by decide), if_pos (by decide)]
  · intro h
    unfold AgentManager.inferChange
    simp only []
    rcases h with h | h <;>
      rw [h] <;> rw [if_neg (by decide), if_neg (by decide), if_pos (by decide)]
  · intro h
    simp only [not_or] at h
    obtain ⟨h1, h2, h3, h4, h5, h6, h7, h8, h9⟩ := h
    unfold AgentManager.inferChange
    simp only []
    rw [if_neg (by simp [h1, h2, h3]), if_neg (by simp [h4, h5, h6, h7]),
      if_neg (by simp [h8, h9])]

/-- C7 witness. -/
theorem tool_result_exact_name_table_witness :
    ([⟨"t1", "edit_file", [("filePath", "b.txt"), ("newString", "y")], none, "running"⟩]
        : List ToolCall).find? (fun t => t.id = "t1") =
      some ⟨"t1", "edit_file", [("filePath", "b.txt"), ("newString", "y")], none, "running"⟩ ∧
    (AgentManager.applyEvent
        ⟨⟨"s1", "T", none, none, none, 0, 0, false, "active"⟩, true, some "a1", "",
          [⟨"t1", "edit_file", [("filePath", "b.txt"), ("newString", "y")], none, "running"⟩],
          [], "", false⟩
        (.tool_result (some "t1") (some "ok"))).fileChanges =
      [] ++ (AgentManager.inferChange
        ⟨"t1", "edit_file", [("filePath", "b.txt"), ("newString", "y")], none, "running"⟩).toList :=
  ⟨by decide,
    (tool_result_exact_name_table
      ⟨⟨"s1", "T", none, none, none, 0, 0, false, "active"⟩, true, some "a1", "",
        [⟨"t1", "edit_file", [("filePath", "b.txt"), ("newString", "y")], none, "running"⟩],
        [], "", false⟩
      "t1" (some "ok") _ (by decide)).1⟩

/-- C9: for the prompt at-billing fix the bug with an existing workspace
billing, createSession binds the session to the billing workspace through
the explicit-mention tier — unconditionally, with no other routing tier
evaluated, as witnessed by the result being independent of the
matchWorkspace inputs — and hands the remainder fix the bug, the prompt with
the leading mention stripped, to the first turn. -/
theorem createSession_explicit_mention (getW : String → Option Workspace)
    (wsFolder randomName : String) (workspaces workspaces2 : List Workspace)
    (llm llm2 : Option ParsedLLM) (sid : String) (now : Nat) (db : DB) (m : SessionMap)
    (w : Workspace) (hW : getW "billing" = some w) (hDisp : w.displayName = "billing") :
    (AgentManager.createSession getW wsFolder randomName workspaces llm none
        "@billing fix the bug" sid now db m).session.workspace = some "billing" ∧
    (AgentManager.createSession getW wsFolder randomName workspaces llm none
        "@billing fix the bug" sid now db m).firstTurnPrompt = "fix the bug" ∧
    AgentManager.createSession getW wsFolder randomName workspaces llm none
        "@billing fix the bug" sid now db m =
      AgentManager.createSession getW wsFolder randomName workspaces2 llm2 none
        "@billing fix the bug" sid now db m := by
  have hm : AgentManager.parseMention "@billing fix the bug" =
      some ("billing", "fix the bug") := by decide
  have hne : ("fix the bug" : String) ≠ "" := by decide
  have hb : ("billing" : String) ≠ "" := by decide
  unfold AgentManager.createSession
  simp only [hm]
  simp [hne, hb, truthy, jsOr, hW, hDisp, jsOrD]

/-- C9 witness. -/
theorem createSession_explicit_mention_witness :
    ((fun n => if n = "billing"
        then some (⟨"billing", "billing", "/w/billing", none, none, none⟩ : Workspace)
        else none) "billing" =
      some (⟨"billing", "billing", "/w/billing", none, none, none⟩ : Workspace)) ∧
    ((⟨"billing", "billing", "/w/billing", none, none, none⟩ : Workspace).displayName =
      "billing") ∧
    ((AgentManager.createSession
        (fun n => if n = "billing"
          then some (⟨"billing", "billing", "/w/billing", none, none, none⟩ : Workspace)
          else none) "/ws" "bold-arc-1" [] none none
        "@billing fix the bug" "sid1" 9 ⟨[], [], []⟩ []).session.workspace = some "billing" ∧
      (AgentManager.createSession
        (fun n => if n = "billing"
          then some (⟨"billing", "billing", "/w/billing", none, none, none⟩ : Workspace)
          else none) "/ws" "bold-arc-1" [] none none
        "@billing fix the bug" "sid1" 9 ⟨[], [], []⟩ []).firstTurnPrompt = "fix the bug" ∧
      AgentManager.createSession
        (fun n => if n = "billing"
          then some (⟨"billing", "billing", "/w/billing", none, none, none⟩ : Workspace)
          else none) "/ws" "bold-arc-1" [] none none
        "@billing fix the bug" "sid1" 9 ⟨[], [], []⟩ [] =
      AgentManager.createSession
        (fun n => if n = "billing"
          then some (⟨"billing", "billing", "/w/billing", none, none, none⟩ : Workspace)
          else none) "/ws" "bold-arc-1"
        [⟨"todo", "todo", "/w/todo", none, none, none⟩]
        (some ⟨some "todo", some (mkRat 9 10), some "r"⟩) none
        "@billing fix the bug" "sid1" 9 ⟨[], [], []⟩ []) :=
  ⟨by decide, by decide,
    createSession_explicit_mention
      (fun n => if n = "billing"
        then some (⟨"billing", "billing", "/w/billing", none, none, none⟩ : Workspace)
        else none) "/ws" "bold-arc-1" []
      [⟨"todo", "todo", "/w/todo", none, none, none⟩] none
      (some ⟨some "todo", some (mkRat 9 10), some "r"⟩) "sid1" 9 ⟨[], [], []⟩ []
      ⟨"billing", "billing", "/w/billing", none, none, none⟩
      (by decide) (by decide)⟩

/-- Helper: with an existing active state and no adapter failure, sendMessage
returns exactly the success-path result. -/
theorem sendMessage_ok_of_active (viewed : Option String) (m : SessionMap) (db : DB)
    (sessionId content : String) (inp : AgentManager.TurnInput) (active0 : ActiveSession)
    (hA : getS m sessionId = some active0)
    (hInit : active0.copilotClient = true ∨ inp.initErr = none)
    (hStream : inp.streamErr = none) :
    AgentManager.sendMessage viewed m db sessionId content inp =
      .ok (AgentManager.successResult viewed m db sessionId content inp active0) := by
  unfold AgentManager.sendMessage AgentManager.resolveActive
  rw [hA]
  simp only []
  rw [AgentManager.sendMessageBody_success viewed m db sessionId content inp active0
    hInit hStream]

/-- C2 counterexample: in a turn whose observed steps are a text event, an
abortSession call, then another text event, the aborted flag is set
mid-stream, yet the event queued after the abort is still applied to the
accumulator (the content buffer ends as both chunks joined by the paragraph
separator), the turn-done finalization still runs (exactly one
assistant-message update in the trace), and a turn-done event is still
emitted after the abort. -/
theorem abort_suppression_counterexample :
    (AgentManager.sendMessage none []
        ⟨[⟨"s1", "T", none, none, none, 0, 0, false, "active"⟩], [], []⟩ "s1" "hi"
        ⟨"u1", "a1", 1, 2, 3, none,
          [.ev (.text (some "a")), .abortCall, .ev (.text (some "b"))],
          none, none, 4, 5⟩).toOption.map
      (fun r => ((getS r.m "s1").map (fun a => (a.content, a.aborted)),
        (r.trace.filter DBOp.isMessageUpdate).length,
        (r.emits.filter Emit.isDone).length)) =
      some (some ("a\n\nb", true), 1, 1) := by decide

/-- C2 (amended): the aborted flag is recorded and reported but never
consulted to suppress processing — handleStreamEvent updates the buffers and
re-emits events identically whether or not the flag is set, and a turn whose
step sequence contains an abortSession call still runs the normal turn-done
finalization when its stream ends: exactly one assistant-message update is
issued and a turn-done event is emitted, carrying aborted equal to true in
its payload. -/
theorem abort_does_not_suppress (viewed : Option String) (m : SessionMap) (db : DB)
    (sessionId content : String) (inp : AgentManager.TurnInput) (active0 : ActiveSession)
    (hA : getS m sessionId = some active0)
    (hInit : active0.copilotClient = true ∨ inp.initErr = none)
    (hStream : inp.streamErr = none)
    (hAbort : AgentManager.TurnStep.abortCall ∈ inp.steps) :
    (∀ (sid : String) (a : ActiveSession) (e : StreamEvent),
        AgentManager.applyEvent { a with aborted := true } e =
          { AgentManager.applyEvent a e with aborted := true } ∧
        AgentManager.emitsOf sid { a with aborted := true } e =
          AgentManager.emitsOf sid a e) ∧
    ∃ r, AgentManager.sendMessage viewed m db sessionId content inp = .ok r ∧
      getS r.m sessionId = some (AgentManager.turnEndState active0 inp) ∧
      (AgentManager.turnEndState active0 inp).aborted = true ∧
      r.trace.filter DBOp.isMessageUpdate =
        [.updateMessageOp inp.asstMsgId
          (AgentManager.finalUpdates (AgentManager.turnEndState active0 inp))] ∧
      Emit.doneE sessionId inp.asstMsgId (AgentManager.turnEndState active0 inp).thinking
          (AgentManager.turnEndState active0 inp).content
          (AgentManager.turnEndState active0 inp).toolCalls
          (AgentManager.turnEndState active0 inp).fileChanges true ∈
        r.emits := by
  obtain ⟨hAdd, hUpd, hSnap, hDecomp, hGet, hDone⟩ :=
    AgentManager.successResult_shape viewed m db sessionId content inp active0
  have habort : (AgentManager.turnEndState active0 inp).aborted = true :=
    AgentManager.applySteps_aborted_of_abortCall inp.steps
      (AgentManager.streamStart active0 inp) rfl hAbort
  refine ⟨fun sid a e => ⟨AgentManager.applyEvent_ignores_aborted a e,
      AgentManager.emitsOf_ignores_aborted sid a e⟩,
    AgentManager.successResult viewed m db sessionId content inp active0,
    sendMessage_ok_of_active viewed m db sessionId content inp active0 hA hInit hStream,
    hGet, habort, hUpd, ?_⟩
  rw [← habort]
  exact hDone

/-- C2 witness. -/
theorem abort_does_not_suppress_witness :
    (getS [("s1", AgentManager.freshActive ⟨"s1", "T", none, none, none, 0, 0, false, "active"⟩)]
        "s1" = some (AgentManager.freshActive ⟨"s1", "T", none, none, none, 0, 0, false, "active"⟩) ∧
      ((AgentManager.freshActive ⟨"s1", "T", none, none, none, 0, 0, false, "active"⟩).copilotClient =
          true ∨
        (⟨"u1", "a1", 1, 2, 3, none, [.ev (.text (some "a")), .abortCall], none, none, 4, 5⟩ :
          AgentManager.TurnInput).initErr = none) ∧
      (⟨"u1", "a1", 1, 2, 3, none, [.ev (.text (some "a")), .abortCall], none, none, 4, 5⟩ :
        AgentManager.TurnInput).streamErr = none ∧
      AgentManager.TurnStep.abortCall ∈
        (⟨"u1", "a1", 1, 2, 3, none, [.ev (.text (some "a")), .abortCall], none, none, 4, 5⟩ :
          AgentManager.TurnInput).steps) ∧
    ((∀ (sid : String) (a : ActiveSession) (e : StreamEvent),
        AgentManager.applyEvent { a with aborted := true } e =
          { AgentManager.applyEvent a e with aborted := true } ∧
        AgentManager.emitsOf sid { a with aborted := true } e =
          AgentManager.emitsOf sid a e) ∧
      ∃ r, AgentManager.sendMessage none
          [("s1", AgentManager.freshActive ⟨"s1", "T", none, none, none, 0, 0, false, "active"⟩)]
          ⟨[⟨"s1", "T", none, none, none, 0, 0, false, "active"⟩], [], []⟩ "s1" "hi"
          ⟨"u1", "a1", 1, 2, 3, none, [.ev (.text (some "a")), .abortCall], none, none, 4, 5⟩ =
          .ok r ∧
        getS r.m "s1" = some (AgentManager.turnEndState
          (AgentManager.freshActive ⟨"s1", "T", none, none, none, 0, 0, false, "active"⟩)
          ⟨"u1", "a1", 1, 2, 3, none, [.ev (.text (some "a")), .abortCall], none, none, 4, 5⟩) ∧
        (AgentManager.turnEndState
          (AgentManager.freshActive ⟨"s1", "T", none, none, none, 0, 0, false, "active"⟩)
          ⟨"u1", "a1", 1, 2, 3, none, [.ev (.text (some "a")), .abortCall], none, none, 4, 5⟩).aborted =
          true ∧
        r.trace.filter DBOp.isMessageUpdate =
          [.updateMessageOp "a1" (AgentManager.finalUpdates (AgentManager.turnEndState
            (AgentManager.freshActive ⟨"s1", "T", none, none, none, 0, 0, false, "active"⟩)
            ⟨"u1", "a1", 1, 2, 3, none, [.ev (.text (some "a")), .abortCall], none, none, 4, 5⟩))] ∧
        Emit.doneE "s1" "a1"
            (AgentManager.turnEndState
              (AgentManager.freshActive ⟨"s1", "T", none, none, none, 0, 0, false, "active"⟩)
              ⟨"u1", "a1", 1, 2, 3, none, [.ev (.text (some "a")), .abortCall], none, none, 4, 5⟩).thinking
            (AgentManager.turnEndState
              (AgentManager.freshActive ⟨"s1", "T", none, none, none, 0, 0, false, "active"⟩)
              ⟨"u1", "a1", 1, 2, 3, none, [.ev (.text (some "a")), .abortCall], none, none, 4, 5⟩).content
            (AgentManager.turnEndState
              (AgentManager.freshActive ⟨"s1", "T", none, none, none, 0, 0, false, "active"⟩)
              ⟨"u1", "a1", 1, 2, 3, none, [.ev (.text (some "a")), .abortCall], none, none, 4, 5⟩).toolCalls
            (AgentManager.turnEndState
              (AgentManager.freshActive ⟨"s1", "T", none, none, none, 0, 0, false, "active"⟩)
              ⟨"u1", "a1", 1, 2, 3, none, [.ev (.text (some "a")), .abortCall], none, none, 4, 5⟩).fileChanges
            true ∈
          r.emits) :=
  ⟨⟨by decide, Or.inr rfl, rfl, by decide⟩,
    abort_does_not_suppress none
      [("s1", AgentManager.freshActive ⟨"s1", "T", none, none, none, 0, 0, false, "active"⟩)]
      ⟨[⟨"s1", "T", none, none, none, 0, 0, false, "active"⟩], [], []⟩ "s1" "hi"
      ⟨"u1", "a1", 1, 2, 3, none, [.ev (.text (some "a")), .abortCall], none, none, 4, 5⟩
      (AgentManager.freshActive ⟨"s1", "T", none, none, none, 0, 0, false, "active"⟩)
      (by decide) (Or.inr rfl) rfl (by decide)⟩

/-- C3: a turn on an active session that completes without an adapter error
creates exactly one assistant message row — the empty placeholder persisted
at turn start — and issues exactly one message update, which finalizes that
row with content, tool calls and file changes equal to the accumulator
contents at turn end (absent columns reading back as empty lists); exactly
one file snapshot keyed by session, message and path is written per
accumulated file change, and in the operation trace every snapshot write
occurs after the finalizing message update, never before. -/
theorem turn_finalization_exactly_once (viewed : Option String) (m : SessionMap) (db : DB)
    (sessionId content : String) (inp : AgentManager.TurnInput) (active0 : ActiveSession)
    (hA : getS m sessionId = some active0)
    (hInit : active0.copilotClient = true ∨ inp.initErr = none)
    (hStream : inp.streamErr = none)
    (hFresh : ∀ mr ∈ db.messages, mr.id ≠ inp.asstMsgId)
    (hIds : inp.userMsgId ≠ inp.asstMsgId) :
    ∃ r, AgentManager.sendMessage viewed m db sessionId content inp = .ok r ∧
      r.trace.filter DBOp.isAssistantAdd =
        [.addMessageOp (AgentManager.asstRowOf sessionId inp)] ∧
      (AgentManager.asstRowOf sessionId inp).content = "" ∧
      r.trace.filter DBOp.isMessageUpdate =
        [.updateMessageOp inp.asstMsgId
          (AgentManager.finalUpdates (AgentManager.turnEndState active0 inp))] ∧
      r.trace.filter DBOp.isSnapshotWrite =
        (AgentManager.turnEndState active0 inp).fileChanges.map
          (fun c => DBOp.saveSnapshotOp sessionId inp.asstMsgId c) ∧
      (∃ pre post, r.trace = pre ++ DBOp.updateMessageOp inp.asstMsgId
            (AgentManager.finalUpdates (AgentManager.turnEndState active0 inp)) ::
            ((AgentManager.turnEndState active0 inp).fileChanges.map
              (fun c => DBOp.saveSnapshotOp sessionId inp.asstMsgId c) ++ post) ∧
        pre.filter DBOp.isSnapshotWrite = [] ∧ post.filter DBOp.isSnapshotWrite = []) ∧
      (∃ row, r.db.messages.find? (fun mr => mr.id = inp.asstMsgId) = some row ∧
        row.content = (AgentManager.turnEndState active0 inp).content ∧
        row.toolCalls.getD [] = (AgentManager.turnEndState active0 inp).toolCalls ∧
        row.fileChanges.getD [] = (AgentManager.turnEndState active0 inp).fileChanges) := by
  obtain ⟨hAdd, hUpd, hSnap, hDecomp, hGet, hDone⟩ :=
    AgentManager.successResult_shape viewed m db sessionId content inp active0
  exact ⟨AgentManager.successResult viewed m db sessionId content inp active0,
    sendMessage_ok_of_active viewed m db sessionId content inp active0 hA hInit hStream,
    hAdd, rfl, hUpd, hSnap, hDecomp,
    successResult_finalized_row viewed m db sessionId content inp active0 hFresh hIds⟩

/-- C3 witness. -/
theorem turn_finalization_exactly_once_witness :
    (getS [("s1", AgentManager.freshActive ⟨"s1", "T", none, none, none, 0, 0, false, "active"⟩)]
        "s1" = some (AgentManager.freshActive ⟨"s1", "T", none, none, none, 0, 0, false, "active"⟩) ∧
      ((AgentManager.freshActive ⟨"s1", "T", none, none, none, 0, 0, false, "active"⟩).copilotClient =
          true ∨
        (⟨"u1", "a1", 1, 2, 3, none, [.ev (.text (some "a"))], none, none, 4, 5⟩ :
          AgentManager.TurnInput).initErr = none) ∧
      (⟨"u1", "a1", 1, 2, 3, none, [.ev (.text (some "a"))], none, none, 4, 5⟩ :
        AgentManager.TurnInput).streamErr = none ∧
      (∀ mr ∈ (⟨[⟨"s1", "T", none, none, none, 0, 0, false, "active"⟩], [], []⟩ : DB).messages,
        mr.id ≠ "a1") ∧
      ("u1" : String) ≠ "a1") ∧
    (∃ r, AgentManager.sendMessage none
        [("s1", AgentManager.freshActive ⟨"s1", "T", none, none, none, 0, 0, false, "active"⟩)]
        ⟨[⟨"s1", "T", none, none, none, 0, 0, false, "active"⟩], [], []⟩ "s1" "hi"
        ⟨"u1", "a1", 1, 2, 3, none, [.ev (.text (some "a"))], none, none, 4, 5⟩ = .ok r ∧
      r.trace.filter DBOp.isAssistantAdd =
        [.addMessageOp (AgentManager.asstRowOf "s1"
          ⟨"u1", "a1", 1, 2, 3, none, [.ev (.text (some "a"))], none, none, 4, 5⟩)] ∧
      (AgentManager.asstRowOf "s1"
        ⟨"u1", "a1", 1, 2, 3, none, [.ev (.text (some "a"))], none, none, 4, 5⟩).content = "" ∧
      r.trace.filter DBOp.isMessageUpdate =
        [.updateMessageOp "a1" (AgentManager.finalUpdates (AgentManager.turnEndState
          (AgentManager.freshActive ⟨"s1", "T", none, none, none, 0, 0, false, "active"⟩)
          ⟨"u1", "a1", 1, 2, 3, none, [.ev (.text (some "a"))], none, none, 4, 5⟩))] ∧
      r.trace.filter DBOp.isSnapshotWrite =
        (AgentManager.turnEndState
          (AgentManager.freshActive ⟨"s1", "T", none, none, none, 0, 0, false, "active"⟩)
          ⟨"u1", "a1", 1, 2, 3, none, [.ev (.text (some "a"))], none, none, 4, 5⟩).fileChanges.map
          (fun c => DBOp.saveSnapshotOp "s1" "a1" c) ∧
      (∃ pre post, r.trace = pre ++ DBOp.updateMessageOp "a1"
            (AgentManager.finalUpdates (AgentManager.turnEndState
              (AgentManager.freshActive ⟨"s1", "T", none, none, none, 0, 0, false, "active"⟩)
              ⟨"u1", "a1", 1, 2, 3, none, [.ev (.text (some "a"))], none, none, 4, 5⟩)) ::
            ((AgentManager.turnEndState
              (AgentManager.freshActive ⟨"s1", "T", none, none, none, 0, 0, false, "active"⟩)
              ⟨"u1", "a1", 1, 2, 3, none, [.ev (.text (some "a"))], none, none, 4, 5⟩).fileChanges.map
              (fun c => DBOp.saveSnapshotOp "s1" "a1" c) ++ post) ∧
        pre.filter DBOp.isSnapshotWrite = [] ∧ post.filter DBOp.isSnapshotWrite = []) ∧
      (∃ row, r.db.messages.find? (fun mr => mr.id = "a1") = some row ∧
        row.content = (AgentManager.turnEndState
          (AgentManager.freshActive ⟨"s1", "T", none, none, none, 0, 0, false, "active"⟩)
          ⟨"u1", "a1", 1, 2, 3, none, [.ev (.text (some "a"))], none, none, 4, 5⟩).content ∧
        row.toolCalls.getD [] = (AgentManager.turnEndState
          (AgentManager.freshActive ⟨"s1", "T", none, none, none, 0, 0, false, "active"⟩)
          ⟨"u1", "a1", 1, 2, 3, none, [.ev (.text (some "a"))], none, none, 4, 5⟩).toolCalls ∧
        row.fileChanges.getD [] = (AgentManager.turnEndState
          (AgentManager.freshActive ⟨"s1", "T", none, none, none, 0, 0, false, "active"⟩)
          ⟨"u1", "a1", 1, 2, 3, none, [.ev (.text (some "a"))], none, none, 4, 5⟩).fileChanges)) :=
  ⟨⟨by decide, Or.inr rfl, rfl, by decide, by decide⟩,
    turn_finalization_exactly_once none
      [("s1", AgentManager.freshActive ⟨"s1", "T", none, none, none, 0, 0, false, "active"⟩)]
      ⟨[⟨"s1", "T", none, none, none, 0, 0, false, "active"⟩], [], []⟩ "s1" "hi"
      ⟨"u1", "a1", 1, 2, 3, none, [.ev (.text (some "a"))], none, none, 4, 5⟩
      (AgentManager.freshActive ⟨"s1", "T", none, none, none, 0, 0, false, "active"⟩)
      (by decide) (Or.inr rfl) rfl (by decide) (by decide)⟩
